import Mathlib

/-!
Verification development for the quimexar retail-management application.

The business logic fragments referenced by the claims are shallowly embedded
here: each TypeScript handler or memoised computation becomes a pure Lean
function over explicit state, translated clause by clause from the source
files.  JavaScript `number` values are modelled as exact rationals (ℚ),
Firestore collections as lists of records, and Firestore document updates as
list transformations keyed by document id.  `Math.floor` becomes `Rat.floor`
and `Math.min` over a spread array becomes a fold with `min`.
-/

namespace Quimexar

/-! ## Cash session (caja) module — src/src/app/(app)/caja/page.tsx -/

/-- A sale as embedded in a cash session (`Sale` in the source).  The line
items of the sale are irrelevant to the caja computations and are carried
opaquely. -/
structure Sale where
  id : String
  total : ℚ
  paymentMethod : String
  timestamp : String
deriving DecidableEq

/-- An expense recorded inside a cash session (`Expense` in the source). -/
structure Expense where
  id : String
  description : String
  amount : ℚ
  timestamp : String
deriving DecidableEq

/-- Counted per-method totals attached to a session at close
(`countedTotals` in the source). -/
structure CountedTotals where
  efectivo : ℚ
  tarjeta : ℚ
  transferencia : ℚ
deriving DecidableEq

/-- A cash session (`CashSession` in the source).  The closing fields are
absent (`none`) while the session is live. -/
structure CashSession where
  id : String
  user : String
  openingTime : String
  initialAmount : ℚ
  sales : List Sale
  expenses : List Expense
  closingTime : Option String := none
  countedTotals : Option CountedTotals := none
  observations : Option String := none
deriving DecidableEq

/-- The `salesByMethod` reduce in `expectedTotals` (caja/page.tsx lines
159-162) builds a record keyed by payment method; reading one key yields the
sum of the totals of the sales with that payment method (0 when the key is
absent, by the `|| 0` default). -/
def sumSalesByMethod (sales : List Sale) (method : String) : ℚ :=
  sales.foldl (fun acc s => if s.paymentMethod = method then acc + s.total else acc) 0

/-- Result shape of the `expectedTotals` memo (caja/page.tsx lines 166-173). -/
structure ExpectedTotals where
  efectivo : ℚ
  tarjeta : ℚ
  transferencia : ℚ
  cuentaCorriente : ℚ
  total : ℚ
  gastos : ℚ
deriving DecidableEq

/-- `expectedTotals` (caja/page.tsx lines 156-174) for a non-null session.
`Total` in the source sums the values of the by-method record, which equals
the sum of all sale totals; `Gastos` sums the expense amounts.  (For a null
session the memo returns all zeros; the claims only concern live sessions.) -/
def expectedTotals (session : CashSession) : ExpectedTotals :=
  { efectivo := sumSalesByMethod session.sales "Efectivo"
    tarjeta := sumSalesByMethod session.sales "Tarjeta"
    transferencia := sumSalesByMethod session.sales "Transferencia"
    cuentaCorriente := sumSalesByMethod session.sales "Cuenta Corriente"
    total := session.sales.foldl (fun acc s => acc + s.total) 0
    gastos := session.expenses.foldl (fun acc e => acc + e.amount) 0 }

/-- The close-box form values (`CloseBoxFormData` in the source). -/
structure CloseBoxFormData where
  countedEfectivo : ℚ
  countedTarjeta : ℚ
  countedTransferencia : ℚ
  observations : Option String := none
deriving DecidableEq

/-- Result shape of the `differences` memo. -/
structure Differences where
  efectivo : ℚ
  tarjeta : ℚ
  transferencia : ℚ
deriving DecidableEq

/-- `expectedCashInBox` as computed inside the `differences` memo
(caja/page.tsx lines 263-264): initial amount plus expected Efectivo sales
minus total expenses. -/
def expectedCashInBox (s : CashSession) : ℚ :=
  s.initialAmount + (expectedTotals s).efectivo - (expectedTotals s).gastos

/-- `differences` (caja/page.tsx lines 258-270): per-method counted minus
expected, where the Efectivo expectation is `expectedCashInBox` and the
Tarjeta/Transferencia expectations are the per-method sale sums.  A null
session yields zeros, as in the source. -/
def differences (session : Option CashSession) (counted : CloseBoxFormData) : Differences :=
  match session with
  | none => { efectivo := 0, tarjeta := 0, transferencia := 0 }
  | some s =>
    { efectivo := counted.countedEfectivo - expectedCashInBox s
      tarjeta := counted.countedTarjeta - (expectedTotals s).tarjeta
      transferencia := counted.countedTransferencia - (expectedTotals s).transferencia }

/-- `handleCloseBox` (caja/page.tsx lines 234-256): attaches closing time,
counted totals and observations to the session, writes it to the history
collection and deletes the live document. -/
def handleCloseBox (live : Option CashSession) (history : List CashSession)
    (data : CloseBoxFormData) (now : String) : Option CashSession × List CashSession :=
  match live with
  | none => (none, history)
  | some s =>
    let closedSession : CashSession :=
      { s with
        closingTime := some now
        countedTotals := some
          { efectivo := data.countedEfectivo
            tarjeta := data.countedTarjeta
            transferencia := data.countedTransferencia }
        observations := data.observations }
    (none, history ++ [closedSession])

/-- Session used to refute claim C1: opened with 100 in the drawer, no sales
and no expenses. -/
def c1Session : CashSession :=
  { id := "CS-1", user := "ana", openingTime := "2024-01-01T09:00:00Z",
    initialAmount := 100, sales := [], expenses := [] }

/-- Counted totals equal to the per-method expected totals of `c1Session`
(all zero, since the session has no sales). -/
def c1Counted : CloseBoxFormData :=
  { countedEfectivo := 0, countedTarjeta := 0, countedTransferencia := 0 }

/-! ## Point of sale (ventas) module — src/src/app/(app)/ventas/page.tsx -/

/-- A catalog product.  Fields not used by the embedded computations (code,
unit, brand) are carried as inert strings. -/
structure Product where
  id : String
  name : String
  code : String
  stock : ℚ
  unit : String
  price : ℚ
  image : String
deriving DecidableEq

/-- One component line of a combo (`combo.products[i]` in the source). -/
structure ComboProduct where
  productId : String
  quantity : ℚ
deriving DecidableEq

/-- A combo (bundle) of products. -/
structure Combo where
  id : String
  name : String
  price : ℚ
  active : Bool
  products : List ComboProduct
deriving DecidableEq

/-- `Math.min(...xs)` over a spread array.  The source only ever applies it
to a non-empty array (guarded by the length check in `calculateComboStock`);
the `[]` case is an arbitrary default. -/
def mathMin : List ℚ → ℚ
  | [] => 0
  | [x] => x
  | x :: y :: xs => min x (mathMin (y :: xs))

/-- `calculateComboStock` (ventas/page.tsx lines 130-138, duplicated in
src/unnamed/part_002 lines 390-398): 0 when the component list is empty or
absent (absent modelled as `[]`); otherwise the minimum over components of
`Math.floor(product.stock / component.quantity)`, with 0 for a missing
component product or stock below the component quantity. -/
def calculateComboStock (products : List Product) (combo : Combo) : ℚ :=
  if combo.products.isEmpty then 0
  else
    let stockLevels := combo.products.map (fun comboProduct =>
      match products.find? (fun p => p.id = comboProduct.productId) with
      | none => 0
      | some product =>
        if product.stock < comboProduct.quantity then 0
        else ((⌊product.stock / comboProduct.quantity⌋ : ℤ) : ℚ))
    mathMin stockLevels

/-- A saleable item (`SaleableItem` in the source): a product or an active
combo enriched with `isCombo` and a computed `stock`.  For a plain product
the combo component list is empty; for a combo it is the combo's own
`products` array (retained by the object spread). -/
structure SaleableItem where
  id : String
  name : String
  price : ℚ
  isCombo : Bool
  stock : ℚ
  products : List ComboProduct := []
deriving DecidableEq

/-- The saleable form of a combo inside the `saleableItems` memo:
`{...c, isCombo: true, stock: calculateComboStock(c)}`. -/
def comboToSaleable (products : List Product) (c : Combo) : SaleableItem :=
  { id := c.id, name := c.name, price := c.price, isCombo := true,
    stock := calculateComboStock products c, products := c.products }

/-- `saleableItems` (ventas/page.tsx lines 140-147): all products, followed
by the active combos with positive computed stock. -/
def saleableItems (products : List Product) (combos : List Combo) : List SaleableItem :=
  (products.map (fun p =>
    { id := p.id, name := p.name, price := p.price, isCombo := false, stock := p.stock }))
  ++ (((combos.filter (fun c => c.active)).map (comboToSaleable products)).filter
        (fun c => c.stock > 0))

/-- A cart line (`CartItem` in the source). -/
structure CartItem where
  item : SaleableItem
  quantity : ℚ
deriving DecidableEq

/-- Reading the per-item discount record: `cartDiscounts[key] || 0`. -/
def lookupDiscount (discounts : List (String × ℚ)) (key : String) : ℚ :=
  (((discounts.find? (fun e => e.1 = key))).map (fun e => e.2)).getD 0

/-- Result shape of the `cartSummary` memo. -/
structure CartSummary where
  subtotal : ℚ
  totalSavings : ℚ
  total : ℚ
deriving DecidableEq

/-- `cartSummary` (ventas/page.tsx lines 181-195). -/
def cartSummary (cart : List CartItem) (cartDiscounts : List (String × ℚ)) : CartSummary :=
  let subtotal := cart.foldl (fun acc ci => acc + ci.item.price * ci.quantity) 0
  let totalSavings := cart.foldl (fun acc ci =>
    acc + ci.item.price * ci.quantity * (lookupDiscount cartDiscounts ci.item.id / 100)) 0
  { subtotal := subtotal, totalSavings := totalSavings, total := subtotal - totalSavings }

/-- A sale line as snapshotted into Sale/BillableItem/Order records. -/
structure StoredSaleItem where
  productId : String
  productName : String
  quantity : ℚ
  price : ℚ
  originalPrice : ℚ
  discountPercentage : ℚ
deriving DecidableEq

/-- `getSaleItemsForStorage` (ventas/page.tsx lines 214-228). -/
def getSaleItemsForStorage (cart : List CartItem) (cartDiscounts : List (String × ℚ)) :
    List StoredSaleItem :=
  cart.map (fun ci =>
    let discount := lookupDiscount cartDiscounts ci.item.id
    let originalPrice := ci.item.price
    let finalPrice := originalPrice * (1 - discount / 100)
    { productId := ci.item.id, productName := ci.item.name, quantity := ci.quantity,
      price := finalPrice, originalPrice := originalPrice, discountPercentage := discount })

/-- A Firestore `update(productRef, {stock: increment(delta)})` on the
product document with the given id. -/
def applyStockDelta (products : List Product) (productId : String) (delta : ℚ) : List Product :=
  products.map (fun p => if p.id = productId then { p with stock := p.stock + delta } else p)

/-- `updateStock` (ventas/page.tsx lines 197-212): one batch decrementing,
for every cart line, either the line's product by the line quantity or — for
a combo line — each component product by component quantity × line
quantity. -/
def updateStock (products : List Product) (cart : List CartItem) : List Product :=
  cart.foldl (fun ps cartItem =>
    if cartItem.item.isCombo then
      cartItem.item.products.foldl (fun ps2 comboProduct =>
        applyStockDelta ps2 comboProduct.productId (-(comboProduct.quantity * cartItem.quantity))) ps
    else
      applyStockDelta ps cartItem.item.id (-cartItem.quantity)) products

/-- A delivery order (`Order` in the source). -/
structure Order where
  id : String
  customerName : String
  deliveryAddress : String
  items : List StoredSaleItem
  total : ℚ
  status : String
  createdAt : String
deriving DecidableEq

/-- The delivery form state (`deliveryInfo` in the source). -/
structure DeliveryInfo where
  name : String
  address : String
  phone : String
deriving DecidableEq

/-- The slice of the document store touched by the ventas handlers. -/
structure VentasState where
  products : List Product
  orders : List Order
  cajaSession : Option CashSession
deriving DecidableEq

/-- JavaScript `String.prototype.trim()`: strip whitespace from both ends.
(Defined structurally over the character list so that it evaluates.) -/
def jsTrim (s : String) : String :=
  String.mk (((s.data.dropWhile (fun c => c.isWhitespace)).reverse.dropWhile
    (fun c => c.isWhitespace)).reverse)

/-- `handleCreateOrder` (ventas/page.tsx lines 345-378): after the
name/address validations, stores a new order with status `Pendiente` and
immediately debits stock via `updateStock`.  The open cash session is not
touched.  `oid` and `now` stand for the generated id and timestamp. -/
def handleCreateOrder (st : VentasState) (cart : List CartItem)
    (cartDiscounts : List (String × ℚ)) (deliveryInfo : DeliveryInfo)
    (oid now : String) : VentasState :=
  if jsTrim deliveryInfo.name = "" then st
  else if jsTrim deliveryInfo.address = "" then st
  else
    let fullAddress :=
      if jsTrim deliveryInfo.phone ≠ "" then
        deliveryInfo.address ++ " (Tel: " ++ deliveryInfo.phone ++ ")"
      else deliveryInfo.address
    let newOrder : Order :=
      { id := oid, customerName := deliveryInfo.name, deliveryAddress := fullAddress,
        items := getSaleItemsForStorage cart cartDiscounts,
        total := (cartSummary cart cartDiscounts).total,
        status := "Pendiente", createdAt := now }
    { st with orders := st.orders ++ [newOrder], products := updateStock st.products cart }

/-- Total stock demand a cart places on one product id: non-combo lines
matching the id contribute their quantity, combo lines contribute component
quantity × line quantity for each matching component. -/
def cartDemand (cart : List CartItem) (pid : String) : ℚ :=
  cart.foldl (fun acc cartItem =>
    if cartItem.item.isCombo then
      cartItem.item.products.foldl (fun a cp =>
        if cp.productId = pid then a + cp.quantity * cartItem.quantity else a) acc
    else if cartItem.item.id = pid then acc + cartItem.quantity else acc) 0

/-! ## Invoicing (facturación) module — src/unnamed/part_000 -/

/-- One aggregated line of an invoice. -/
structure InvoiceLineItem where
  description : String
  quantity : ℚ
  price : ℚ
  total : ℚ
deriving DecidableEq

/-- A recorded payment on an invoice. -/
structure Payment where
  id : String
  amount : ℚ
  date : String
  method : String
deriving DecidableEq

/-- An invoice. -/
structure Invoice where
  id : String
  sequentialId : String
  type : String
  customerId : String
  customerName : String
  date : String
  dueDate : String
  items : List InvoiceLineItem
  total : ℚ
  status : String
  payments : List Payment
  sourceSaleIds : List String
deriving DecidableEq

/-- An uninvoiced (or invoiced) billable sale record. -/
structure BillableItem where
  id : String
  date : String
  customerId : String
  customerName : String
  items : List StoredSaleItem
  total : ℚ
  type : String
  invoiced : Bool
  invoiceId : Option String := none
deriving DecidableEq

/-- A customer, as read by the invoicing screen. -/
structure Customer where
  id : String
  name : String
deriving DecidableEq

/-- The slice of the document store touched by the invoicing handlers. -/
structure FacturacionState where
  invoices : List Invoice
  billableItems : List BillableItem
  clients : List Customer
deriving DecidableEq

/-- The generate-invoice form values. -/
structure GenerateInvoiceData where
  selectedSales : List String
  customerId : String
  invoiceType : String
  issueDate : String
  dueDate : String
deriving DecidableEq

/-- `"${n}".padStart(len, c)`. -/
def padStart (s : String) (n : Nat) (c : Char) : String :=
  if n ≤ s.length then s else String.mk (List.replicate (n - s.length) c) ++ s

/-- `handleGenerateInvoice` (src/unnamed/part_000 lines 270-316): filters
the billable items down to the selected ids; if none, no write happens.
Otherwise one atomic batch creates the invoice (with the summed total, the
flattened line items and `sourceSaleIds := selectedSales`) and flips every
selected billable item to `invoiced := true, invoiceId := newId`.  `newId`
stands for the Firestore-generated invoice document id; the source asserts
that the chosen client exists (`clients.find(...)!`), modelled by a `""`
fallback name. -/
def handleGenerateInvoice (st : FacturacionState) (data : GenerateInvoiceData)
    (newId : String) : FacturacionState :=
  let salesToInvoice := st.billableItems.filter (fun item => data.selectedSales.contains item.id)
  if salesToInvoice.isEmpty then st
  else
    let total := salesToInvoice.foldl (fun sum item => sum + item.total) 0
    let items := salesToInvoice.flatMap (fun s => s.items.map (fun i =>
      ({ description := i.productName, quantity := i.quantity, price := i.price,
         total := i.quantity * i.price } : InvoiceLineItem)))
    let customerName := (((st.clients.find? (fun c => c.id = data.customerId))).map
      (fun c => c.name)).getD ""
    let newInvoice : Invoice :=
      { id := newId,
        sequentialId := padStart (toString (st.invoices.length + 1)) 8 '0',
        type := data.invoiceType,
        customerId := data.customerId,
        customerName := customerName,
        date := data.issueDate,
        dueDate := data.dueDate,
        items := items,
        total := total,
        status := "Pendiente",
        payments := [],
        sourceSaleIds := data.selectedSales }
    { st with
      invoices := st.invoices ++ [newInvoice],
      billableItems := st.billableItems.map (fun b =>
        if data.selectedSales.contains b.id then
          { b with invoiced := true, invoiceId := some newId }
        else b) }

/-- The register-payment form values. -/
structure RegisterPaymentData where
  amount : ℚ
  date : String
  method : String
deriving DecidableEq

/-- Cumulative paid amount: `payments.reduce((sum, p) => sum + p.amount, 0)`. -/
def paymentsSum (payments : List Payment) : ℚ :=
  payments.foldl (fun sum p => sum + p.amount) 0

/-- `handleRegisterPayment` (src/unnamed/part_000 lines 318-343): finds the
invoice, appends the new payment and sets status to `Pagada` when the
cumulative paid amount reaches the total, otherwise keeps the prior status.
`payId` stands for the generated payment id. -/
def handleRegisterPayment (invoices : List Invoice) (invoiceId : String)
    (payId : String) (data : RegisterPaymentData) : List Invoice :=
  match invoices.find? (fun inv => inv.id = invoiceId) with
  | none => invoices
  | some invoiceToUpdate =>
    let newPayment : Payment :=
      { id := payId, amount := data.amount, date := data.date, method := data.method }
    let updatedPayments := invoiceToUpdate.payments ++ [newPayment]
    let totalPaid := paymentsSum updatedPayments
    let newStatus := if totalPaid ≥ invoiceToUpdate.total then "Pagada" else invoiceToUpdate.status
    invoices.map (fun inv =>
      if inv.id = invoiceId then
        { inv with payments := updatedPayments, status := newStatus }
      else inv)

/-! ## Sellers (consignment) module — src/unnamed/part_003 -/

/-- One assigned-stock line of a seller. -/
structure AssignedStockItem where
  productId : String
  name : String
  quantity : ℚ
deriving DecidableEq

/-- One line of a seller sale. -/
structure SellerSaleItem where
  productId : String
  quantity : ℚ
  price : ℚ
  originalPrice : ℚ
  discountPercentage : ℚ
deriving DecidableEq

/-- A sale recorded against a seller. -/
structure SellerSale where
  id : String
  items : List SellerSaleItem
  total : ℚ
  timestamp : String
deriving DecidableEq

/-- A return recorded against a seller. -/
structure SellerReturn where
  id : String
  productId : String
  quantity : ℚ
  reason : String
  timestamp : String
deriving DecidableEq

/-- A seller with consigned stock. -/
structure Seller where
  id : String
  name : String
  address : String
  phone : String
  assignedStock : List AssignedStockItem
  sales : List SellerSale
  returns : List SellerReturn
  balance : ℚ
deriving DecidableEq

/-- The value stored in the `stockMap` of `calculateSellerStock`. -/
structure SellerStockData where
  name : String
  quantity : ℚ
  price : ℚ
  image : String
deriving DecidableEq

/-- The JS `Map<string, SellerStockData>` of `calculateSellerStock`,
modelled as an insertion-ordered association list with unique keys. -/
abbrev StockMap := List (String × SellerStockData)

/-- `stockMap.get(k)` (`none` when the key is absent). -/
def mapGet? (m : StockMap) (k : String) : Option SellerStockData :=
  ((m.find? (fun e => e.1 = k))).map (fun e => e.2)

/-- `stockMap.set(k, v)`: overwrites in place when the key exists (keeping
insertion order), otherwise appends, as a JS `Map` does. -/
def mapSet (m : StockMap) (k : String) (v : SellerStockData) : StockMap :=
  if m.any (fun e => e.1 = k) then m.map (fun e => if e.1 = k then (k, v) else e)
  else m ++ [(k, v)]

/-- The body of the `assignedStock.forEach` loop of `calculateSellerStock`
(src/unnamed/part_003 lines 228-234): when the product is in the catalog,
add the assigned quantity to the entry (creating it at the current quantity
`|| 0`); otherwise skip the line. -/
def assignStep (localProducts : List Product) (m : StockMap)
    (item : AssignedStockItem) : StockMap :=
  match localProducts.find? (fun p => p.id = item.productId) with
  | some productInfo =>
    let currentQty := ((mapGet? m item.productId).map (fun d => d.quantity)).getD 0
    mapSet m item.productId
      { name := item.name, quantity := currentQty + item.quantity,
        price := productInfo.price, image := productInfo.image }
  | none => m

/-- The `assignedStock.forEach` phase of `calculateSellerStock`:
accumulates assigned quantities per product id, skipping products missing
from the catalog. -/
def assignPhase (localProducts : List Product) (m : StockMap)
    (items : List AssignedStockItem) : StockMap :=
  items.foldl (assignStep localProducts) m

/-- The common body of the `sales.forEach` and `returns.forEach` phases of
`calculateSellerStock` (lines 236-251, two textually identical loops):
subtract a quantity from the map entry when the product is already in the
map, otherwise do nothing. -/
def subtractQty (m : StockMap) (pid : String) (q : ℚ) : StockMap :=
  match mapGet? m pid with
  | some d => mapSet m pid { d with quantity := d.quantity - q }
  | none => m

/-- The `sales.forEach` phase of `calculateSellerStock` (lines 236-242). -/
def salesPhase (m : StockMap) (sales : List SellerSale) : StockMap :=
  sales.foldl (fun m sale =>
    sale.items.foldl (fun m2 item => subtractQty m2 item.productId item.quantity) m) m

/-- The `returns.forEach` phase of `calculateSellerStock` (lines 244-251). -/
def returnsPhase (m : StockMap) (returns : List SellerReturn) : StockMap :=
  returns.foldl (fun m ret => subtractQty m ret.productId ret.quantity) m

/-- One entry of the computed consigned-stock list. -/
structure SellerStockEntry where
  productId : String
  name : String
  quantity : ℚ
  price : ℚ
  image : String
deriving DecidableEq

/-- The fully folded `stockMap` of `calculateSellerStock`: assigned stock,
then sales, then returns, starting from the empty map. -/
def sellerStockMap (s : Seller) (localProducts : List Product) : StockMap :=
  returnsPhase (salesPhase (assignPhase localProducts [] s.assignedStock) s.sales) s.returns

/-- `calculateSellerStock` (src/unnamed/part_003 lines 223-255): fold
assigned stock, sales and returns into a per-product map, then emit the
entries with positive quantity (in insertion order). -/
def calculateSellerStock (seller : Option Seller) (localProducts : List Product) :
    List SellerStockEntry :=
  match seller with
  | none => []
  | some s =>
    ((sellerStockMap s localProducts).map (fun e =>
      ({ productId := e.1, name := e.2.name, quantity := e.2.quantity, price := e.2.price,
         image := e.2.image } : SellerStockEntry))).filter (fun p => p.quantity > 0)

/-- The seller's available consigned quantity of one product, as read by
`handleRegisterReturn` (line 468):
`calculateSellerStock(seller, products).find(p => p.productId === id)?.quantity || 0`. -/
def availableQty (seller : Seller) (products : List Product) (pid : String) : ℚ :=
  ((((calculateSellerStock (some seller) products).find?
      (fun p => p.productId = pid))).map (fun p => p.quantity)).getD 0

/-- The register-return form values (`returnSchema` in the source). -/
structure ReturnFormData where
  productId : String
  quantity : ℚ
  reason : String
deriving DecidableEq

/-- `handleRegisterReturn` (src/unnamed/part_003 lines 459-496): aborts when
the product is unknown or the quantity exceeds the seller's available
consigned stock; otherwise increments the catalog product stock when the
reason is `"No vendido"` (and only then) and appends the return record to
the seller.  `retId` and `now` stand for the generated id and timestamp. -/
def handleRegisterReturn (products : List Product) (seller : Seller)
    (data : ReturnFormData) (retId now : String) : List Product × Seller :=
  match products.find? (fun p => p.id = data.productId) with
  | none => (products, seller)
  | some _ =>
    let availableToReturn := availableQty seller products data.productId
    if data.quantity > availableToReturn then (products, seller)
    else
      let products2 :=
        if data.reason = "No vendido" then applyStockDelta products data.productId data.quantity
        else products
      let newReturn : SellerReturn :=
        { id := retId, productId := data.productId, quantity := data.quantity,
          reason := data.reason, timestamp := now }
      (products2, { seller with returns := seller.returns ++ [newReturn] })

/-! ## Supplier orders module — src/unnamed/part_004 -/

/-- One line of a supplier purchase order. -/
structure SupplierOrderItem where
  name : String
  quantity : ℚ
  unit : String
  price : ℚ
deriving DecidableEq

/-- One line of the receipt snapshot stored on a received order. -/
structure ReceivedItem where
  name : String
  quantity : ℚ
  unit : String
deriving DecidableEq

/-- A supplier purchase order. -/
structure SupplierOrder where
  id : String
  sequentialId : String
  supplierId : String
  supplierName : String
  orderDate : String
  items : List SupplierOrderItem
  total : ℚ
  status : String
  observations : Option String := none
  receivedDate : Option String := none
  receivedItems : Option (List ReceivedItem) := none
deriving DecidableEq

/-- One line of the receive-order form. -/
structure ReceiveOrderLine where
  name : String
  unit : String
  orderedQuantity : ℚ
  receivedQuantity : ℚ
deriving DecidableEq

/-- The receive-order form values. -/
structure ReceiveOrderFormData where
  items : List ReceiveOrderLine
deriving DecidableEq

/-- A raw-material / packaging stock record (`GeneralStockItem` without the
generated id). -/
structure GeneralStockItem where
  name : String
  quantity : ℚ
  unit : String
  supplier : String
  entryDate : String
  notes : String
  category : String
deriving DecidableEq

/-- `handleReceiveOrderSubmit` (src/unnamed/part_004 lines 296-336): adds a
brand-new general-stock record for each line with a positive received
quantity (never merging into an existing record), then marks the order
`Recibido (Parcial)` when some line was received short of its ordered
quantity and `Recibido` otherwise, stamping `receivedDate` and the
`receivedItems` snapshot of the entered quantities.  `today` and `now` stand
for the date and timestamp strings. -/
def handleReceiveOrderSubmit (generalStock : List GeneralStockItem)
    (orderToReceive : SupplierOrder) (data : ReceiveOrderFormData)
    (today now : String) : List GeneralStockItem × SupplierOrder :=
  let isPartial := data.items.any (fun item => item.receivedQuantity < item.orderedQuantity)
  let receivedItemsForStock := data.items.filter (fun item => item.receivedQuantity > 0)
  let receivedItemsForHistory := data.items.map (fun item =>
    ({ name := item.name, quantity := item.receivedQuantity, unit := item.unit } : ReceivedItem))
  let newStockItems := receivedItemsForStock.map (fun item =>
    ({ name := item.name, quantity := item.receivedQuantity, unit := item.unit,
       supplier := orderToReceive.supplierName, entryDate := today,
       notes := "Ingreso desde pedido a proveedor #" ++ orderToReceive.sequentialId,
       category := "Insumo" } : GeneralStockItem))
  let newStatus := if isPartial then "Recibido (Parcial)" else "Recibido"
  (generalStock ++ newStockItems,
   { orderToReceive with
      status := newStatus
      receivedDate := some now
      receivedItems := some receivedItemsForHistory })

/-! ## Spec-side derived quantities used to state the claims -/

/-- The stock of the product with the given id (`0` when absent), used to
state the combo-stock formula of the spec. -/
def stockOf (products : List Product) (pid : String) : ℚ :=
  (((products.find? (fun p => p.id = pid))).map (fun p => p.stock)).getD 0

/-- Sum of the totals of a list of billable items. -/
def billableSum (l : List BillableItem) : ℚ :=
  l.foldl (fun sum item => sum + item.total) 0

/-- The stock demand a list of combo components (bought `q` times) places on
one product id. -/
def componentDemand (cps : List ComboProduct) (q : ℚ) (pid : String) : ℚ :=
  cps.foldl (fun a cp => if cp.productId = pid then a + cp.quantity * q else a) 0

/-- The stock demand a single cart line places on one product id. -/
def perLineDemand (cartItem : CartItem) (pid : String) : ℚ :=
  if cartItem.item.isCombo then componentDemand cartItem.item.products cartItem.quantity pid
  else if cartItem.item.id = pid then cartItem.quantity else 0

/-- `Σ assignedStock.quantity` for one product id. -/
def assignedSum (s : Seller) (pid : String) : ℚ :=
  s.assignedStock.foldl (fun a it => if it.productId = pid then a + it.quantity else a) 0

/-- `Σ sales.items.quantity` for one product id, over all sales. -/
def salesSum (s : Seller) (pid : String) : ℚ :=
  (s.sales.flatMap (fun sale => sale.items)).foldl
    (fun a it => if it.productId = pid then a + it.quantity else a) 0

/-- `Σ returns.quantity` for one product id. -/
def returnsSum (s : Seller) (pid : String) : ℚ :=
  s.returns.foldl (fun a r => if r.productId = pid then a + r.quantity else a) 0

/-- The quantity stored in a stock map under one key, when present. -/
def mapQty? (m : StockMap) (k : String) : Option ℚ :=
  (mapGet? m k).map (fun d => d.quantity)

/-! ## Concrete inputs used by the counterexamples and witnesses -/

/-- Session for end-to-end scenario A: initial amount 100, one Efectivo sale
of 50, one expense of 20. -/
def c2Session : CashSession :=
  { id := "CS-2", user := "ana", openingTime := "2024-01-02T09:00:00Z",
    initialAmount := 100,
    sales := [{ id := "VTA-1", total := 50, paymentMethod := "Efectivo",
                timestamp := "2024-01-02T10:00:00Z" }],
    expenses := [{ id := "EXP-1", description := "flete", amount := 20,
                   timestamp := "2024-01-02T11:00:00Z" }] }

/-- First uninvoiced billable item, total 150. -/
def c3Billable1 : BillableItem :=
  { id := "BS-1", date := "2024-02-01", customerId := "CL-1", customerName := "Juan",
    items := [], total := 150, type := "pos-sale", invoiced := false }

/-- Second uninvoiced billable item, total 90. -/
def c3Billable2 : BillableItem :=
  { id := "BS-2", date := "2024-02-02", customerId := "CL-1", customerName := "Juan",
    items := [], total := 90, type := "delivery-order", invoiced := false }

/-- Third billable item, for another customer, not selected. -/
def c3Billable3 : BillableItem :=
  { id := "BS-3", date := "2024-02-03", customerId := "CL-2", customerName := "Rosa",
    items := [], total := 70, type := "pos-sale", invoiced := false }

/-- Invoicing state with three uninvoiced billable items. -/
def c3State : FacturacionState :=
  { invoices := []
    billableItems := [c3Billable1, c3Billable2, c3Billable3]
    clients := [{ id := "CL-1", name := "Juan" }, { id := "CL-2", name := "Rosa" }] }

/-- Generate-invoice form selecting the two billable items of `c3State`. -/
def c3Data : GenerateInvoiceData :=
  { selectedSales := ["BS-1", "BS-2"], customerId := "CL-1", invoiceType := "B",
    issueDate := "2024-02-10", dueDate := "2024-03-11" }

/-- The invoicing state after generating invoice `INV-9` from the two
selected billables of `c3State`. -/
def st3After : FacturacionState := handleGenerateInvoice c3State c3Data "INV-9"

/-- An invoice of total 240 with no payments yet (scenario C). -/
def c4Invoice : Invoice :=
  { id := "FAC-1", sequentialId := "00000001", type := "B", customerId := "CL-1",
    customerName := "Juan", date := "2024-02-10", dueDate := "2024-03-11", items := [],
    total := 240, status := "Pendiente", payments := [], sourceSaleIds := ["BS-1", "BS-2"] }

/-- The invoices collection holding just `c4Invoice`. -/
def c4Invoices : List Invoice := [c4Invoice]

/-- A first partial payment of 100. -/
def c4Pay100 : RegisterPaymentData :=
  { amount := 100, date := "2024-02-15", method := "Efectivo" }

/-- A second payment of 140, completing the total of 240. -/
def c4Pay140 : RegisterPaymentData :=
  { amount := 140, date := "2024-02-20", method := "Transferencia" }

/-- The invoices collection after recording the payment of 100. -/
def c4AfterFirst : List Invoice := handleRegisterPayment c4Invoices "FAC-1" "PAY-1" c4Pay100

/-- The invoices collection after also recording the payment of 140. -/
def c4AfterSecond : List Invoice := handleRegisterPayment c4AfterFirst "FAC-1" "PAY-2" c4Pay140

/-- Catalog with the single product `P` of the consigned-stock fold example. -/
def c5Products : List Product :=
  [{ id := "P", name := "Producto P", code := "P-01", stock := 0, unit := "u", price := 5,
     image := "img-p" }]

/-- The expected consigned-stock entry for the fold example: quantity
`10 − 3 − 1 = 6` of product `P`. -/
def c5Entry : SellerStockEntry :=
  { productId := "P", name := "Producto P", quantity := 6, price := 5, image := "img-p" }

/-- Seller with `assignedStock=[{P,10}]`, `sales=[{items:[{P,3}]}]`,
`returns=[{P,1}]`. -/
def c5Seller : Seller :=
  { id := "SEL-1", name := "Marta", address := "", phone := "",
    assignedStock := [{ productId := "P", name := "Producto P", quantity := 10 }],
    sales := [{ id := "SELLSALE-1",
                items := [{ productId := "P", quantity := 3, price := 5, originalPrice := 5,
                            discountPercentage := 0 }],
                total := 15, timestamp := "2024-03-01T10:00:00Z" }],
    returns := [{ id := "RET-1", productId := "P", quantity := 1, reason := "No vendido",
                  timestamp := "2024-03-02T10:00:00Z" }],
    balance := 0 }

/-- First catalog product of the combo-stock witness: stock 10. -/
def c6ProductA : Product :=
  { id := "A", name := "Agua", code := "A-01", stock := 10, unit := "u", price := 3,
    image := "img-a" }

/-- Second catalog product of the combo-stock witness: stock 5. -/
def c6ProductB : Product :=
  { id := "B", name := "Bidon", code := "B-01", stock := 5, unit := "u", price := 8,
    image := "img-b" }

/-- Catalog for the combo-stock witness: stocks 10 and 5. -/
def c6Products : List Product := [c6ProductA, c6ProductB]

/-- Combo needing 2 of `A` and 5 of `B`: available stock
`min(floor(10/2), floor(5/5)) = 1`. -/
def c6Combo : Combo :=
  { id := "CMB-1", name := "Pack", price := 20, active := true,
    products := [{ productId := "A", quantity := 2 }, { productId := "B", quantity := 5 }] }

/-- A supplier order of two lines, quantities 10 and 4. -/
def c7Order : SupplierOrder :=
  { id := "SO-1", sequentialId := "000001", supplierId := "SUP-1",
    supplierName := "Quimica SA", orderDate := "2024-04-01",
    items := [{ name := "Soda caustica", quantity := 10, unit := "kg", price := 7 },
              { name := "Envase 5L", quantity := 4, unit := "u", price := 2 }],
    total := 78, status := "EnTransito" }

/-- Receipt entering both lines in full. -/
def c7DataFull : ReceiveOrderFormData :=
  { items := [{ name := "Soda caustica", unit := "kg", orderedQuantity := 10,
                receivedQuantity := 10 },
              { name := "Envase 5L", unit := "u", orderedQuantity := 4,
                receivedQuantity := 4 }] }

/-- Receipt entering the second line short (3 of 4) and the first at zero. -/
def c7DataPartial : ReceiveOrderFormData :=
  { items := [{ name := "Soda caustica", unit := "kg", orderedQuantity := 10,
                receivedQuantity := 0 },
              { name := "Envase 5L", unit := "u", orderedQuantity := 4,
                receivedQuantity := 3 }] }

/-- Store slice for the delivery-order witness: two products, no orders, an
open cash session with no sales. -/
def c8State : VentasState :=
  { products :=
      [{ id := "A", name := "Agua", code := "A-01", stock := 10, unit := "u", price := 3,
         image := "img-a" },
       { id := "B", name := "Bidon", code := "B-01", stock := 5, unit := "u", price := 8,
         image := "img-b" }]
    orders := []
    cajaSession := some
      { id := "CS-8", user := "ana", openingTime := "2024-05-01T09:00:00Z",
        initialAmount := 50, sales := [], expenses := [] } }

/-- Cart with 2 units of product `A` and 1 unit of a combo taking
1 of `A` and 2 of `B`. -/
def c8Cart : List CartItem :=
  [{ item := { id := "A", name := "Agua", price := 3, isCombo := false, stock := 10 },
     quantity := 2 },
   { item := { id := "CMB-1", name := "Pack", price := 12, isCombo := true, stock := 2,
               products := [{ productId := "A", quantity := 1 },
                            { productId := "B", quantity := 2 }] },
     quantity := 1 }]

/-- Delivery form values for the witness order. -/
def c8Info : DeliveryInfo :=
  { name := "Carla", address := "Calle 12 n 34", phone := "" }

/-- Catalog product for the seller-return witness: `P` with stock 4. -/
def c9ProductP : Product :=
  { id := "P", name := "Producto P", code := "P-01", stock := 4, unit := "u", price := 5,
    image := "img-p" }

/-- Catalog for the seller-return witness. -/
def c9Products : List Product := [c9ProductP]

/-- Seller holding 10 assigned units of `P`, nothing sold or returned. -/
def c9Seller : Seller :=
  { id := "SEL-9", name := "Marta", address := "", phone := "",
    assignedStock := [{ productId := "P", name := "Producto P", quantity := 10 }],
    sales := [], returns := [], balance := 0 }

/-- Return of 3 units of `P` as unsold. -/
def c9DataUnsold : ReturnFormData :=
  { productId := "P", quantity := 3, reason := "No vendido" }

/-- Return of 3 units of `P` as damaged. -/
def c9DataDamaged : ReturnFormData :=
  { productId := "P", quantity := 3, reason := "Dañado" }

/-- A combo with an empty component list. -/
def c10Combo : Combo :=
  { id := "CMB-0", name := "Pack vacio", price := 9, active := true, products := [] }

/-- Combos collection containing the empty combo next to a stocked one. -/
def c10Combos : List Combo := [c10Combo, c6Combo]

/-! ## Shared lemmas -/

/-- A fold whose step adds a per-element contribution can be started at any
accumulator: the initial value splits off additively. -/
theorem foldl_step_init {α : Type} (step : ℚ → α → ℚ)
    (h : ∀ a x, step a x = a + step 0 x) :
    ∀ (l : List α) (a : ℚ), l.foldl step a = a + l.foldl step 0
  | [], a => by simp
  | x :: xs, a => by
    rw [List.foldl_cons, List.foldl_cons, foldl_step_init step h xs (step a x),
      foldl_step_init step h xs (step 0 x), h a x, add_assoc]

/-- `Math.min` of a non-empty list is one of its elements. -/
theorem mathMin_mem : ∀ (l : List ℚ), l ≠ [] → mathMin l ∈ l
  | [], h => absurd rfl h
  | [x], _ => by simp [mathMin]
  | x :: y :: xs, _ => by
    have ih := mathMin_mem (y :: xs) (by simp)
    rw [show mathMin (x :: y :: xs) = min x (mathMin (y :: xs)) from rfl]
    rcases min_choice x (mathMin (y :: xs)) with h | h
    · rw [h]; exact List.mem_cons_self _ _
    · rw [h]; exact List.mem_cons_of_mem _ ih

/-- `Math.min` of a list is a lower bound for its elements. -/
theorem mathMin_le : ∀ (l : List ℚ) (x : ℚ), x ∈ l → mathMin l ≤ x
  | [], _, h => by simp at h
  | [y], x, hx => by
    rw [List.mem_singleton] at hx
    rw [hx]; exact le_of_eq rfl
  | y :: z :: xs, x, hx => by
    rw [show mathMin (y :: z :: xs) = min y (mathMin (z :: xs)) from rfl]
    rcases List.mem_cons.mp hx with rfl | hx'
    · exact min_le_left _ _
    · exact le_trans (min_le_right _ _) (mathMin_le (z :: xs) x hx')

/-! ## Claim C1 — reconciliation at close -/

/-- C1, counterexample: for the session `c1Session` (initial amount 100, no
sales, no expenses) and counted totals equal to the per-method expected
totals (all zero), the computed differences are not all zero: the Efectivo
difference is `0 − (100 + 0 − 0) = −100`. -/
theorem C1_counterexample :
    (c1Counted.countedEfectivo = (expectedTotals c1Session).efectivo
      ∧ c1Counted.countedTarjeta = (expectedTotals c1Session).tarjeta
      ∧ c1Counted.countedTransferencia = (expectedTotals c1Session).transferencia)
    ∧ ¬ (differences (some c1Session) c1Counted
          = { efectivo := 0, tarjeta := 0, transferencia := 0 }) := by
  refine ⟨⟨?_, ?_, ?_⟩, ?_⟩ <;>
    norm_num [c1Counted, c1Session, expectedTotals, sumSalesByMethod, differences,
      expectedCashInBox, Differences.mk.injEq]

/-- C1, amended: closing a session yields differences of exactly zero if and
only if `countedTarjeta` and `countedTransferencia` equal the per-method
expected totals and `countedEfectivo` equals the expected cash in box
(`initialAmount + expected Efectivo − total expenses`), which equals the
Efectivo sales sum only when the initial amount equals the total expenses. -/
theorem C1_differences_zero_iff (s : CashSession) (c : CloseBoxFormData) :
    differences (some s) c = { efectivo := 0, tarjeta := 0, transferencia := 0 } ↔
      (c.countedEfectivo = expectedCashInBox s
        ∧ c.countedTarjeta = (expectedTotals s).tarjeta
        ∧ c.countedTransferencia = (expectedTotals s).transferencia) := by
  simp [differences, Differences.mk.injEq, sub_eq_zero]

/-! ## Claim C2 — end-to-end scenario A -/

/-- C2: for a session opened with 100, one Efectivo sale of 50 and one
expense of 20, the expected cash in drawer
(`initialAmount + expected Efectivo − total expenses`) is 130, and closing
with `countedEfectivo = 130` yields an Efectivo difference of 0. -/
theorem C2_scenarioA :
    c2Session.initialAmount + (expectedTotals c2Session).efectivo
        - (expectedTotals c2Session).gastos = 130
    ∧ (differences (some c2Session)
        { countedEfectivo := 130, countedTarjeta := 0, countedTransferencia := 0 }).efectivo
        = 0 := by
  constructor <;>
    norm_num [c2Session, differences, expectedCashInBox, expectedTotals, sumSalesByMethod]

/-! ## Claim C6 — combo available stock -/

/-- C6: for a combo with a non-empty component list and positive component
quantities, the computed available stock equals the minimum over components
of `floor(stock / quantity)` whenever every component product is present
with sufficient stock, and it is 0 as soon as some component product is
missing or has stock below the component quantity.  (`calculateComboStock`
is a pure function by construction.) -/
theorem C6_comboAvailableStock (products : List Product) (combo : Combo)
    (hne : combo.products ≠ [])
    (hq : ∀ cp ∈ combo.products, 0 < cp.quantity) :
    ((∀ cp ∈ combo.products, ∃ p, products.find? (fun q => q.id = cp.productId) = some p
        ∧ cp.quantity ≤ p.stock) →
      calculateComboStock products combo
        = mathMin (combo.products.map (fun cp =>
            ((⌊stockOf products cp.productId / cp.quantity⌋ : ℤ) : ℚ))))
    ∧ ((∃ cp ∈ combo.products, ∀ p,
          products.find? (fun q => q.id = cp.productId) = some p → p.stock < cp.quantity) →
      calculateComboStock products combo = 0) := by
  have hne' : ¬ combo.products.isEmpty := by
    simpa [List.isEmpty_iff] using hne
  have hunfold : calculateComboStock products combo
      = mathMin (combo.products.map (fun cp =>
          match products.find? (fun p => p.id = cp.productId) with
          | none => 0
          | some product =>
            if product.stock < cp.quantity then 0
            else ((⌊product.stock / cp.quantity⌋ : ℤ) : ℚ))) := by
    rw [calculateComboStock, if_neg hne']
  have hnonneg : ∀ x ∈ combo.products.map (fun cp =>
      match products.find? (fun p => p.id = cp.productId) with
      | none => 0
      | some product =>
        if product.stock < cp.quantity then 0
        else ((⌊product.stock / cp.quantity⌋ : ℤ) : ℚ)), (0:ℚ) ≤ x := by
    intro x hx
    rcases List.mem_map.mp hx with ⟨cp, hcp, rfl⟩
    rcases hfind : products.find? (fun p => p.id = cp.productId) with _ | p
    · simp [hfind]
    · by_cases hlt : p.stock < cp.quantity
      · simp [hfind, hlt]
      · have hq' := hq cp hcp
        have hstock : (0:ℚ) ≤ p.stock / cp.quantity :=
          div_nonneg (le_trans hq'.le (not_lt.mp hlt)) hq'.le
        simp only [hfind, if_neg hlt]
        have hfl : (0:ℤ) ≤ ⌊p.stock / cp.quantity⌋ := Int.le_floor.mpr (by simpa using hstock)
        exact Int.cast_nonneg.mpr hfl
  constructor
  · intro hall
    rw [hunfold]
    refine congrArg mathMin (List.map_congr_left ?_)
    intro cp hcp
    rcases hall cp hcp with ⟨p, hfind, hle⟩
    simp [hfind, stockOf, not_lt.mpr hle]
  · rintro ⟨cp, hcp, hbad⟩
    rw [hunfold]
    have hzero : (0:ℚ) ∈ combo.products.map (fun cp =>
        match products.find? (fun p => p.id = cp.productId) with
        | none => 0
        | some product =>
          if product.stock < cp.quantity then 0
          else ((⌊product.stock / cp.quantity⌋ : ℤ) : ℚ)) := by
      refine List.mem_map.mpr ⟨cp, hcp, ?_⟩
      rcases hfind : products.find? (fun p => p.id = cp.productId) with _ | p
      · simp [hfind]
      · simp [hfind, if_pos (hbad p hfind)]
    have hmapne : combo.products.map (fun cp =>
        match products.find? (fun p => p.id = cp.productId) with
        | none => 0
        | some product =>
          if product.stock < cp.quantity then 0
          else ((⌊product.stock / cp.quantity⌋ : ℤ) : ℚ)) ≠ [] := by
      simpa using hne
    exact le_antisymm (mathMin_le _ 0 hzero) (hnonneg _ (mathMin_mem _ hmapne))

/-- C6, witness: for `c6Combo` over `c6Products` the hypotheses hold, the
formula applies, and the computed stock is `min(floor(10/2), floor(5/5)) = 1`. -/
theorem C6_witness :
    c6Combo.products ≠ []
    ∧ (∀ cp ∈ c6Combo.products, 0 < cp.quantity)
    ∧ calculateComboStock c6Products c6Combo
        = mathMin (c6Combo.products.map (fun cp =>
            ((⌊stockOf c6Products cp.productId / cp.quantity⌋ : ℤ) : ℚ)))
    ∧ calculateComboStock c6Products c6Combo = 1 := by
  have hfA : c6Products.find? (fun q => q.id = "A") = some c6ProductA := rfl
  have hfB : c6Products.find? (fun q => q.id = "B") = some c6ProductB := rfl
  have h1 : c6Combo.products ≠ [] := by simp [c6Combo]
  have h2 : ∀ cp ∈ c6Combo.products, 0 < cp.quantity := by
    intro cp hcp
    simp only [c6Combo, List.mem_cons, List.not_mem_nil, or_false] at hcp
    rcases hcp with rfl | rfl
    · norm_num
    · norm_num
  have h3 : ∀ cp ∈ c6Combo.products, ∃ p,
      c6Products.find? (fun q => q.id = cp.productId) = some p ∧ cp.quantity ≤ p.stock := by
    intro cp hcp
    simp only [c6Combo, List.mem_cons, List.not_mem_nil, or_false] at hcp
    rcases hcp with rfl | rfl
    · exact ⟨c6ProductA, hfA, by norm_num [c6ProductA]⟩
    · exact ⟨c6ProductB, hfB, by norm_num [c6ProductB]⟩
  refine ⟨h1, h2, (C6_comboAvailableStock c6Products c6Combo h1 h2).1 h3, ?_⟩
  rw [calculateComboStock]
  norm_num [c6Combo, hfA, hfB, c6ProductA, c6ProductB, mathMin, min_def]

/-! ## Claim C10 — empty combos are never saleable -/

/-- C10: a combo whose component list is empty (an absent list is modelled
as the empty list) has computed available stock 0; every combo entry offered
by `saleableItems` has positive stock; hence the saleable form of such a
combo never appears in `saleableItems`. -/
theorem C10_emptyCombo (products : List Product) (combos : List Combo) (combo : Combo)
    (hempty : combo.products = []) :
    calculateComboStock products combo = 0
    ∧ (∀ it ∈ saleableItems products combos, it.isCombo = true → 0 < it.stock)
    ∧ comboToSaleable products combo ∉ saleableItems products combos := by
  have h0 : calculateComboStock products combo = 0 := by
    simp [calculateComboStock, hempty]
  have hpos : ∀ it ∈ saleableItems products combos, it.isCombo = true → 0 < it.stock := by
    intro it hit hcombo
    rcases List.mem_append.mp hit with hl | hr
    · rcases List.mem_map.mp hl with ⟨p, _, rfl⟩
      simp at hcombo
    · simpa using (List.mem_filter.mp hr).2
  refine ⟨h0, hpos, ?_⟩
  intro hmem
  have hlt := hpos _ hmem (by rfl)
  rw [show (comboToSaleable products combo).stock = calculateComboStock products combo
    from rfl, h0] at hlt
  exact lt_irrefl 0 hlt

/-- C10, witness: the concrete empty combo `c10Combo` has stock 0 and its
saleable form is absent from `saleableItems c6Products c10Combos`. -/
theorem C10_witness :
    calculateComboStock c6Products c10Combo = 0
    ∧ comboToSaleable c6Products c10Combo ∉ saleableItems c6Products c10Combos := by
  have h := C10_emptyCombo c6Products c10Combos c10Combo (by rfl)
  exact ⟨h.1, h.2.2⟩

/-! ## Claim C7 — receiving a supplier order -/

/-- C7: receiving a supplier order appends one brand-new general-stock
record per line with positive received quantity (existing records are never
merged into), sets the status to `Recibido` when every line was received in
full and to `Recibido (Parcial)` when some line was received short, and
stamps the order with `receivedDate` and the `receivedItems` snapshot of the
entered quantities. -/
theorem C7_receiveSupplierOrder (generalStock : List GeneralStockItem)
    (orderToReceive : SupplierOrder) (data : ReceiveOrderFormData) (today now : String) :
    ((handleReceiveOrderSubmit generalStock orderToReceive data today now).1
      = generalStock
        ++ (data.items.filter (fun item => item.receivedQuantity > 0)).map (fun item =>
            ({ name := item.name, quantity := item.receivedQuantity, unit := item.unit,
               supplier := orderToReceive.supplierName, entryDate := today,
               notes := "Ingreso desde pedido a proveedor #" ++ orderToReceive.sequentialId,
               category := "Insumo" } : GeneralStockItem)))
    ∧ ((∀ line ∈ data.items, line.receivedQuantity = line.orderedQuantity) →
        (handleReceiveOrderSubmit generalStock orderToReceive data today now).2.status
          = "Recibido")
    ∧ ((∃ line ∈ data.items, line.receivedQuantity < line.orderedQuantity) →
        (handleReceiveOrderSubmit generalStock orderToReceive data today now).2.status
          = "Recibido (Parcial)")
    ∧ (handleReceiveOrderSubmit generalStock orderToReceive data today now).2.receivedDate
        = some now
    ∧ (handleReceiveOrderSubmit generalStock orderToReceive data today now).2.receivedItems
        = some (data.items.map (fun item =>
            ({ name := item.name, quantity := item.receivedQuantity,
               unit := item.unit } : ReceivedItem))) := by
  refine ⟨rfl, ?_, ?_, rfl, rfl⟩
  · intro hfull
    have hany : data.items.any (fun item => item.receivedQuantity < item.orderedQuantity)
        = false := by
      rw [List.any_eq_false]
      intro line hline
      simp [hfull line hline]
    simp [handleReceiveOrderSubmit, hany]
  · intro hshort
    have hany : data.items.any (fun item => item.receivedQuantity < item.orderedQuantity)
        = true := by
      rw [List.any_eq_true]
      rcases hshort with ⟨line, hline, hlt⟩
      exact ⟨line, hline, by simpa using hlt⟩
    simp [handleReceiveOrderSubmit, hany]

/-- C7, witness: receiving `c7Order` in full yields status `Recibido`;
receiving it short yields `Recibido (Parcial)`, appends exactly one stock
record (for the one line with positive received quantity) and stamps the
receipt snapshot. -/
theorem C7_witness :
    (handleReceiveOrderSubmit [] c7Order c7DataFull "2024-04-10" "T1").2.status = "Recibido"
    ∧ (handleReceiveOrderSubmit [] c7Order c7DataPartial "2024-04-10" "T1").2.status
        = "Recibido (Parcial)"
    ∧ (handleReceiveOrderSubmit [] c7Order c7DataPartial "2024-04-10" "T1").1
        = [{ name := "Envase 5L", quantity := 3, unit := "u", supplier := "Quimica SA",
             entryDate := "2024-04-10", notes := "Ingreso desde pedido a proveedor #000001",
             category := "Insumo" }]
    ∧ (handleReceiveOrderSubmit [] c7Order c7DataPartial "2024-04-10" "T1").2.receivedDate
        = some "T1" := by
  have h := C7_receiveSupplierOrder [] c7Order c7DataFull "2024-04-10" "T1"
  have h' := C7_receiveSupplierOrder [] c7Order c7DataPartial "2024-04-10" "T1"
  refine ⟨h.2.1 ?_, h'.2.2.1 ?_, ?_, h'.2.2.2.1⟩
  · intro line hline
    simp only [c7DataFull, List.mem_cons, List.not_mem_nil, or_false] at hline
    rcases hline with rfl | rfl <;> norm_num
  · refine ⟨{ name := "Envase 5L", unit := "u", orderedQuantity := 4, receivedQuantity := 3 },
      ?_, by norm_num⟩
    simp [c7DataPartial]
  · rw [h'.1]
    norm_num [c7DataPartial, List.filter_cons, c7Order]
    rfl

/-! ## Claim C3 — invoice generation flips exactly the selected billables -/

/-- C3: when the selected set matches at least one billable item,
`handleGenerateInvoice` flips every selected billable item to
`invoiced = true` with the new invoice's id, leaves every unselected
billable item (and the clients collection) untouched, and appends one
invoice whose total is the sum of the selected items' totals and whose
`sourceSaleIds` are the selected ids. -/
theorem C3_generateInvoice (st : FacturacionState) (data : GenerateInvoiceData) (newId : String)
    (hne : ¬ (st.billableItems.filter (fun b => data.selectedSales.contains b.id)).isEmpty) :
    (∀ b ∈ (handleGenerateInvoice st data newId).billableItems,
        data.selectedSales.contains b.id → b.invoiced = true ∧ b.invoiceId = some newId)
    ∧ (∀ b ∈ st.billableItems, ¬ data.selectedSales.contains b.id →
        b ∈ (handleGenerateInvoice st data newId).billableItems)
    ∧ (∃ inv : Invoice,
        (handleGenerateInvoice st data newId).invoices = st.invoices ++ [inv]
        ∧ inv.id = newId
        ∧ inv.sourceSaleIds = data.selectedSales
        ∧ inv.total
            = billableSum (st.billableItems.filter (fun b => data.selectedSales.contains b.id)))
    ∧ (handleGenerateInvoice st data newId).clients = st.clients := by
  rw [handleGenerateInvoice, if_neg hne]
  refine ⟨?_, ?_, ?_, rfl⟩
  · intro b hb hsel
    rcases List.mem_map.mp hb with ⟨a, ha, rfl⟩
    by_cases hsa : data.selectedSales.contains a.id = true
    · rw [if_pos hsa]
      exact ⟨rfl, rfl⟩
    · rw [if_neg hsa] at hsel ⊢
      exact absurd hsel hsa
  · intro b hb hnsel
    exact List.mem_map.mpr ⟨b, hb, if_neg hnsel⟩
  · exact ⟨_, rfl, rfl, rfl, rfl⟩

/-- C3, witness: generating an invoice from the two selected billables of
`c3State` flips them, leaves the third untouched, and yields an invoice with
total `150 + 90 = 240` and the selected source ids. -/
theorem C3_witness :
    ¬ ((c3State.billableItems.filter (fun b => c3Data.selectedSales.contains b.id)).isEmpty)
    ∧ (∀ b ∈ st3After.billableItems,
        c3Data.selectedSales.contains b.id → b.invoiced = true ∧ b.invoiceId = some "INV-9")
    ∧ (∃ inv : Invoice, st3After.invoices = c3State.invoices ++ [inv]
        ∧ inv.id = "INV-9" ∧ inv.sourceSaleIds = c3Data.selectedSales
        ∧ inv.total
            = billableSum (c3State.billableItems.filter
                (fun b => c3Data.selectedSales.contains b.id)))
    ∧ billableSum (c3State.billableItems.filter (fun b => c3Data.selectedSales.contains b.id))
        = 240 := by
  have hne : ¬ ((c3State.billableItems.filter
      (fun b => c3Data.selectedSales.contains b.id)).isEmpty) := by
    simp [c3State, c3Data, c3Billable1, c3Billable2, c3Billable3]
  have h := C3_generateInvoice c3State c3Data "INV-9" hne
  have hf : c3State.billableItems.filter (fun b => c3Data.selectedSales.contains b.id)
      = [c3Billable1, c3Billable2] := rfl
  exact ⟨hne, h.1, h.2.2.1,
    by rw [hf]; norm_num [billableSum, c3Billable1, c3Billable2]⟩

/-! ## Claim C4 — recording a payment on an invoice -/

/-- C4: `handleRegisterPayment` leaves invoices with a different id
untouched, and replaces the found invoice by one with the new payment
appended and status `Pagada` exactly when the cumulative payments reach the
total, the prior status otherwise.  In particular, on an invoice of total
240 with no payments, a payment of 100 leaves status `Pendiente` and a
further payment of 140 makes it `Pagada`. -/
theorem C4_recordPayment (invoices : List Invoice) (invoiceId payId : String)
    (data : RegisterPaymentData) (inv : Invoice)
    (hfind : invoices.find? (fun i => i.id = invoiceId) = some inv) :
    (∀ j ∈ invoices, j.id ≠ invoiceId → j ∈ handleRegisterPayment invoices invoiceId payId data)
    ∧ (∃ inv2 ∈ handleRegisterPayment invoices invoiceId payId data,
        inv2.id = invoiceId
        ∧ inv2.payments = inv.payments
            ++ [{ id := payId, amount := data.amount, date := data.date, method := data.method }]
        ∧ inv2.status = (if paymentsSum (inv.payments
              ++ [{ id := payId, amount := data.amount, date := data.date,
                    method := data.method }]) ≥ inv.total
            then "Pagada" else inv.status))
    ∧ ((c4AfterFirst.find? (fun i => i.id = "FAC-1")).map (fun i => i.status)
        = some "Pendiente")
    ∧ ((c4AfterSecond.find? (fun i => i.id = "FAC-1")).map (fun i => i.status)
        = some "Pagada") := by
  have hmem : inv ∈ invoices := List.mem_of_find?_eq_some hfind
  have hid : inv.id = invoiceId := by
    have := List.find?_some hfind
    simpa using this
  refine ⟨?_, ?_, ?_, ?_⟩
  · intro j hj hne
    simp only [handleRegisterPayment, hfind]
    exact List.mem_map.mpr ⟨j, hj, by simp [hne]⟩
  · simp only [handleRegisterPayment, hfind]
    refine ⟨_, List.mem_map.mpr ⟨inv, hmem, rfl⟩, by simp [hid], by simp [hid], by simp [hid]⟩
  · norm_num [c4AfterFirst, c4Invoices, c4Invoice, c4Pay100, handleRegisterPayment,
      paymentsSum, List.find?]
  · norm_num [c4AfterSecond, c4AfterFirst, c4Invoices, c4Invoice, c4Pay100, c4Pay140,
      handleRegisterPayment, paymentsSum, List.find?]

/-- C4, witness: applied to the concrete invoice of total 240 and the first
payment of 100. -/
theorem C4_witness :
    c4Invoices.find? (fun i => i.id = "FAC-1") = some c4Invoice
    ∧ (∃ inv2 ∈ handleRegisterPayment c4Invoices "FAC-1" "PAY-1" c4Pay100,
        inv2.id = "FAC-1"
        ∧ inv2.payments = c4Invoice.payments
            ++ [{ id := "PAY-1", amount := c4Pay100.amount, date := c4Pay100.date,
                  method := c4Pay100.method }]
        ∧ inv2.status = (if paymentsSum (c4Invoice.payments
              ++ [{ id := "PAY-1", amount := c4Pay100.amount, date := c4Pay100.date,
                    method := c4Pay100.method }]) ≥ c4Invoice.total
            then "Pagada" else c4Invoice.status)) := by
  have hfind : c4Invoices.find? (fun i => i.id = "FAC-1") = some c4Invoice := rfl
  exact ⟨hfind, (C4_recordPayment c4Invoices "FAC-1" "PAY-1" c4Pay100 c4Invoice hfind).2.1⟩

/-! ## Claim C8 — delivery orders debit stock at creation time -/

/-- An if-guarded additive step splits off its initial accumulator. -/
theorem ite_add_step {α : Type} (P : α → Prop) [DecidablePred P] (f : α → ℚ)
    (a : ℚ) (x : α) :
    (if P x then a + f x else a) = a + (if P x then 0 + f x else 0) := by
  by_cases h : P x <;> simp [h]

/-- The step function of `cartDemand` splits off its accumulator. -/
theorem cartDemand_step_init (pid : String) (a : ℚ) (x : CartItem) :
    (if x.item.isCombo then
        x.item.products.foldl (fun acc cp =>
          if cp.productId = pid then acc + cp.quantity * x.quantity else acc) a
      else if x.item.id = pid then a + x.quantity else a)
    = a + (if x.item.isCombo then
        x.item.products.foldl (fun acc cp =>
          if cp.productId = pid then acc + cp.quantity * x.quantity else acc) 0
      else if x.item.id = pid then 0 + x.quantity else 0) := by
  by_cases hc : x.item.isCombo
  · rw [if_pos hc, if_pos hc]
    exact foldl_step_init _ (fun a cp => ite_add_step (fun cp => cp.productId = pid)
      (fun cp => cp.quantity * x.quantity) a cp) x.item.products a
  · rw [if_neg hc, if_neg hc]
    exact ite_add_step (fun x : CartItem => x.item.id = pid) (fun x => x.quantity) a x

/-- `cartDemand` splits as head line demand plus tail demand. -/
theorem cartDemand_cons (ci : CartItem) (cart : List CartItem) (pid : String) :
    cartDemand (ci :: cart) pid = perLineDemand ci pid + cartDemand cart pid := by
  rw [cartDemand, cartDemand, List.foldl_cons,
    foldl_step_init _ (cartDemand_step_init pid) cart]
  congr 1
  by_cases hc : ci.item.isCombo
  · simp [perLineDemand, componentDemand, hc]
  · by_cases hid : ci.item.id = pid <;> simp [perLineDemand, hc, hid]

/-- Subtracting a zero demand is the identity on a product list. -/
theorem map_stock_sub_zero (ps : List Product) :
    ps.map (fun p => { p with stock := p.stock - 0 }) = ps := by
  have h : (fun p : Product => { p with stock := p.stock - 0 }) = fun p => p := by
    funext p; simp
  rw [h, List.map_id']

/-- Folding `applyStockDelta` over the components of a combo decrements each
product by its total component demand. -/
theorem comboComponents_foldl_eq (q : ℚ) :
    ∀ (cps : List ComboProduct) (ps : List Product),
    cps.foldl (fun ps2 cp => applyStockDelta ps2 cp.productId (-(cp.quantity * q))) ps
      = ps.map (fun p => { p with stock := p.stock - componentDemand cps q p.id })
  | [], ps => by
    simp only [List.foldl_nil, componentDemand, List.foldl_nil]
    exact (map_stock_sub_zero ps).symm
  | cp :: cps, ps => by
    rw [List.foldl_cons, comboComponents_foldl_eq q cps (applyStockDelta ps cp.productId
      (-(cp.quantity * q))), applyStockDelta, List.map_map]
    refine List.map_congr_left ?_
    intro p hp
    dsimp only [Function.comp]
    have hcd : componentDemand (cp :: cps) q p.id
        = (if cp.productId = p.id then 0 + cp.quantity * q else 0)
          + componentDemand cps q p.id := by
      rw [componentDemand, componentDemand, List.foldl_cons,
        foldl_step_init _ (fun a x => ite_add_step (fun x => x.productId = p.id)
          (fun x => x.quantity * q) a x) cps]
    rw [hcd]
    by_cases hid : p.id = cp.productId
    · rw [if_pos hid, if_pos (show cp.productId = p.id from hid.symm)]
      dsimp only
      congr 1
      ring
    · rw [if_neg hid, if_neg (fun h => hid h.symm), zero_add]

/-- One step of `updateStock` decrements every product by that cart line's
demand. -/
theorem updateStockStep_eq (ci : CartItem) (ps : List Product) :
    (if ci.item.isCombo then
        ci.item.products.foldl (fun ps2 cp =>
          applyStockDelta ps2 cp.productId (-(cp.quantity * ci.quantity))) ps
      else applyStockDelta ps ci.item.id (-ci.quantity))
      = ps.map (fun p => { p with stock := p.stock - perLineDemand ci p.id }) := by
  by_cases hc : ci.item.isCombo
  · rw [if_pos hc, comboComponents_foldl_eq]
    refine List.map_congr_left ?_
    intro p hp
    simp [perLineDemand, hc]
  · rw [if_neg hc, applyStockDelta]
    refine List.map_congr_left ?_
    intro p hp
    rw [perLineDemand, if_neg hc]
    by_cases hid : p.id = ci.item.id
    · rw [if_pos hid, if_pos (show ci.item.id = p.id from hid.symm)]
      congr 1
      ring
    · rw [if_neg hid, if_neg (fun h => hid h.symm), sub_zero]

/-- `updateStock` decrements every product's stock by the cart's total
demand on that product. -/
theorem updateStock_eq :
    ∀ (cart : List CartItem) (ps : List Product),
    updateStock ps cart = ps.map (fun p => { p with stock := p.stock - cartDemand cart p.id })
  | [], ps => by
    rw [updateStock, List.foldl_nil]
    exact (map_stock_sub_zero ps).symm
  | ci :: cart, ps => by
    rw [updateStock, List.foldl_cons]
    have htail : ∀ ps0 : List Product,
        cart.foldl (fun ps2 cartItem =>
          if cartItem.item.isCombo then
            cartItem.item.products.foldl (fun ps3 comboProduct =>
              applyStockDelta ps3 comboProduct.productId
                (-(comboProduct.quantity * cartItem.quantity))) ps2
          else applyStockDelta ps2 cartItem.item.id (-cartItem.quantity)) ps0
        = updateStock ps0 cart := fun _ => rfl
    rw [htail, updateStock_eq cart _, updateStockStep_eq, List.map_map]
    refine List.map_congr_left ?_
    intro p hp
    dsimp only [Function.comp]
    rw [cartDemand_cons]
    congr 1
    ring

/-- C8: creating a delivery order (with non-empty name and address) debits
the product stock immediately — every product's stock drops by the cart's
demand on it, combo lines fanning out to their components — stores one new
order with status `Pendiente` holding the cart snapshot, and leaves the open
cash session untouched (no sale is recorded at that point). -/
theorem C8_createOrderDebitsStock (st : VentasState) (cart : List CartItem)
    (cartDiscounts : List (String × ℚ)) (deliveryInfo : DeliveryInfo) (oid now : String)
    (hname : ¬ jsTrim deliveryInfo.name = "")
    (haddr : ¬ jsTrim deliveryInfo.address = "") :
    ((handleCreateOrder st cart cartDiscounts deliveryInfo oid now).products
        = st.products.map (fun p => { p with stock := p.stock - cartDemand cart p.id }))
    ∧ (∃ newOrder : Order,
        (handleCreateOrder st cart cartDiscounts deliveryInfo oid now).orders
          = st.orders ++ [newOrder]
        ∧ newOrder.status = "Pendiente"
        ∧ newOrder.items = getSaleItemsForStorage cart cartDiscounts
        ∧ newOrder.total = (cartSummary cart cartDiscounts).total)
    ∧ (handleCreateOrder st cart cartDiscounts deliveryInfo oid now).cajaSession
        = st.cajaSession := by
  rw [handleCreateOrder, if_neg hname, if_neg haddr]
  exact ⟨updateStock_eq cart st.products, ⟨_, rfl, rfl, rfl, rfl⟩, rfl⟩

/-- C8, witness: the concrete delivery order over `c8State` with cart
`c8Cart` (2 of product `A` plus one combo taking 1 of `A` and 2 of `B`)
drops the stocks from 10 and 5 to 7 and 3, and the open session is
untouched. -/
theorem C8_witness :
    ¬ (jsTrim c8Info.name = "")
    ∧ ¬ (jsTrim c8Info.address = "")
    ∧ (handleCreateOrder c8State c8Cart [] c8Info "PED-1" "T1").products
        = c8State.products.map (fun p => { p with stock := p.stock - cartDemand c8Cart p.id })
    ∧ (handleCreateOrder c8State c8Cart [] c8Info "PED-1" "T1").cajaSession
        = c8State.cajaSession
    ∧ (handleCreateOrder c8State c8Cart [] c8Info "PED-1" "T1").products.map
        (fun p => p.stock) = [7, 3] := by
  have h1 : ¬ (jsTrim c8Info.name = "") := by decide
  have h2 : ¬ (jsTrim c8Info.address = "") := by decide
  have h := C8_createOrderDebitsStock c8State c8Cart [] c8Info "PED-1" "T1" h1 h2
  have sAB : ¬ ("A":String) = "B" := by decide
  have sBA : ¬ ("B":String) = "A" := by decide
  have hdA : cartDemand c8Cart "A" = 3 := by
    simp only [cartDemand, c8Cart, List.foldl_cons, List.foldl_nil, sBA]
    norm_num
  have hdB : cartDemand c8Cart "B" = 2 := by
    simp only [cartDemand, c8Cart, List.foldl_cons, List.foldl_nil, sAB]
    norm_num
  refine ⟨h1, h2, h.1, h.2.2, ?_⟩
  rw [h.1]
  norm_num [c8State, hdA, hdB]

/-! ## Stock-map lemmas for the seller module -/

/-- Updating the value stored under `k` leaves the lookup at `k` pointing at
the new value, provided `k` is present. -/
theorem find?_update_self (k : String) (v : SellerStockData) :
    ∀ m : StockMap,
    (m.map (fun e => if e.1 = k then (k, v) else e)).find? (fun e => e.1 = k)
      = if m.any (fun e => e.1 = k) then some (k, v) else none
  | [] => by simp
  | e :: m => by
    by_cases he : e.1 = k
    · rw [List.map_cons, if_pos he, List.find?_cons_of_pos _ (by simp)]
      simp only [List.any_cons]
      have hde : (decide (e.1 = k)) = true := by simpa using he
      simp [hde]
    · rw [List.map_cons, if_neg he, List.find?_cons_of_neg _ (by simpa using he),
        find?_update_self k v m]
      simp only [List.any_cons]
      have hde : (decide (e.1 = k)) = false := by simpa using he
      by_cases hm : (m.any fun e => decide (e.1 = k)) = true
      · rw [if_pos hm, if_pos (by simp [hde, hm])]
      · rw [if_neg hm, if_neg (by simp [hde, hm])]

/-- Updating the value stored under `k` does not change lookups at other
keys. -/
theorem find?_update_ne (k k' : String) (v : SellerStockData) (hkk : ¬ k = k') :
    ∀ m : StockMap,
    (m.map (fun e => if e.1 = k then (k, v) else e)).find? (fun e => e.1 = k')
      = m.find? (fun e => e.1 = k')
  | [] => by simp
  | e :: m => by
    by_cases he : e.1 = k
    · rw [List.map_cons, if_pos he]
      rw [List.find?_cons_of_neg _ (by simpa using hkk)]
      rw [List.find?_cons_of_neg _ (by simp [he, hkk])]
      exact find?_update_ne k k' v hkk m
    · rw [List.map_cons, if_neg he]
      by_cases he' : e.1 = k'
      · rw [List.find?_cons_of_pos _ (by simpa using he'),
          List.find?_cons_of_pos _ (by simpa using he')]
      · rw [List.find?_cons_of_neg _ (by simpa using he'),
          List.find?_cons_of_neg _ (by simpa using he')]
        exact find?_update_ne k k' v hkk m

/-- `mapSet` followed by a lookup at the same key yields the new value. -/
theorem mapGet?_set_self (m : StockMap) (k : String) (v : SellerStockData) :
    mapGet? (mapSet m k v) k = some v := by
  rw [mapSet]
  by_cases hany : m.any (fun e => e.1 = k) = true
  · rw [if_pos hany, mapGet?, find?_update_self, if_pos hany]
    rfl
  · rw [if_neg hany, mapGet?, List.find?_append]
    have hnone : m.find? (fun e => e.1 = k) = none := by
      rw [List.find?_eq_none]
      intro x hx
      exact fun hpx => hany (List.any_eq_true.mpr ⟨x, hx, hpx⟩)
    rw [hnone]
    simp

/-- `mapSet` does not change lookups at other keys. -/
theorem mapGet?_set_ne (m : StockMap) (k k' : String) (v : SellerStockData)
    (h : ¬ k' = k) :
    mapGet? (mapSet m k v) k' = mapGet? m k' := by
  rw [mapSet]
  by_cases hany : m.any (fun e => e.1 = k) = true
  · rw [if_pos hany, mapGet?, find?_update_ne k k' v (fun hk => h hk.symm), mapGet?]
  · rw [if_neg hany, mapGet?, List.find?_append, mapGet?]
    have hlast : ([((k, v) : String × SellerStockData)].find? (fun e => e.1 = k')) = none := by
      rw [List.find?_eq_none]
      intro x hx
      rw [List.mem_singleton] at hx
      subst hx
      simpa using fun hk => h hk.symm
    rw [hlast]
    cases m.find? (fun e => e.1 = k') <;> rfl

/-- The quantity view of `subtractQty`: at the subtracted key the stored
quantity (if any) drops by `q`; other keys are untouched. -/
theorem mapQty?_subtractQty (m : StockMap) (pid : String) (q : ℚ) (k : String) :
    mapQty? (subtractQty m pid q) k
      = if pid = k then (mapQty? m k).map (fun v => v - q) else mapQty? m k := by
  cases hget : mapGet? m pid with
  | none =>
    have hid : subtractQty m pid q = m := by rw [subtractQty, hget]
    rw [hid]
    by_cases hpk : pid = k
    · subst hpk
      rw [if_pos rfl]
      simp [mapQty?, hget]
    · rw [if_neg hpk]
  | some d =>
    have hset : subtractQty m pid q = mapSet m pid { d with quantity := d.quantity - q } := by
      rw [subtractQty, hget]
    rw [hset]
    by_cases hpk : pid = k
    · subst hpk
      rw [if_pos rfl]
      simp [mapQty?, mapGet?_set_self, hget]
    · rw [if_neg hpk, mapQty?, mapGet?_set_ne m pid k _ (fun hk => hpk hk.symm), mapQty?]

/-- An if-guarded sum over elements none of which match the key keeps its
initial value. -/
theorem guardSum_const {α : Type} (key : α → String) (qty : α → ℚ) (k : String) :
    ∀ (L : List α) (a : ℚ), (∀ x ∈ L, ¬ key x = k) →
      L.foldl (fun a x => if key x = k then a + qty x else a) a = a
  | [], _, _ => rfl
  | x :: L, a, h => by
    rw [List.foldl_cons, if_neg (h x (List.mem_cons_self x L))]
    exact guardSum_const key qty k L a (fun y hy => h y (List.mem_cons_of_mem x hy))

/-- Cons split of an if-guarded additive fold. -/
theorem guardSum_cons {α : Type} (key : α → String) (qty : α → ℚ) (k : String)
    (x : α) (L : List α) :
    (x :: L).foldl (fun a y => if key y = k then a + qty y else a) 0
      = (if key x = k then qty x else 0)
        + L.foldl (fun a y => if key y = k then a + qty y else a) 0 := by
  have hstep : ∀ (a : ℚ) (y : α),
      (if key y = k then a + qty y else a)
        = a + (if key y = k then 0 + qty y else 0) := by
    intro a y
    by_cases hy : key y = k <;> simp [hy]
  rw [List.foldl_cons, foldl_step_init _ hstep L]
  congr 1
  by_cases hx : key x = k <;> simp [hx]

/-- Quantity view of a fold of `subtractQty` steps: the stored quantity at
`k` (if any) drops by the guarded sum of the subtracted quantities. -/
theorem mapQty?_foldl_subtract {α : Type} (key : α → String) (qty : α → ℚ) :
    ∀ (L : List α) (m : StockMap) (k : String),
    mapQty? (L.foldl (fun m x => subtractQty m (key x) (qty x)) m) k
      = (mapQty? m k).map (fun v =>
          v - L.foldl (fun a x => if key x = k then a + qty x else a) 0)
  | [], m, k => by simp
  | x :: L, m, k => by
    rw [List.foldl_cons, mapQty?_foldl_subtract key qty L _ k, mapQty?_subtractQty,
      guardSum_cons key qty k x L]
    by_cases hx : key x = k
    · rw [if_pos hx, if_pos hx]
      cases mapQty? m k with
      | none => rfl
      | some v =>
        simp only [Option.map_some']
        congr 1
        ring
    · rw [if_neg hx, if_neg hx, zero_add]

/-- `salesPhase` is the subtract-fold over the flattened sale items. -/
theorem salesPhase_eq_flat :
    ∀ (sales : List SellerSale) (m : StockMap),
    salesPhase m sales
      = (sales.flatMap (fun sale => sale.items)).foldl
          (fun m item => subtractQty m item.productId item.quantity) m
  | [], m => rfl
  | s :: sales, m => by
    have h1 : salesPhase m (s :: sales)
        = salesPhase (s.items.foldl
            (fun m2 item => subtractQty m2 item.productId item.quantity) m) sales := rfl
    rw [h1, salesPhase_eq_flat sales _, List.flatMap_cons, List.foldl_append]

/-- Quantity view of the sales phase. -/
theorem mapQty?_salesPhase (m : StockMap) (sales : List SellerSale) (k : String) :
    mapQty? (salesPhase m sales) k
      = (mapQty? m k).map (fun v =>
          v - (sales.flatMap (fun sale => sale.items)).foldl
            (fun a it => if it.productId = k then a + it.quantity else a) 0) := by
  rw [salesPhase_eq_flat]
  exact mapQty?_foldl_subtract (fun it : SellerSaleItem => it.productId)
    (fun it : SellerSaleItem => it.quantity) _ m k

/-- Quantity view of the returns phase. -/
theorem mapQty?_returnsPhase (m : StockMap) (returns : List SellerReturn) (k : String) :
    mapQty? (returnsPhase m returns) k
      = (mapQty? m k).map (fun v =>
          v - returns.foldl (fun a r => if r.productId = k then a + r.quantity else a) 0) :=
  mapQty?_foldl_subtract (fun r : SellerReturn => r.productId)
    (fun r : SellerReturn => r.quantity) returns m k

/-- Cons split of the guarded assigned-quantity sum. -/
theorem assignedSum_cons (k : String) (x : AssignedStockItem) (L : List AssignedStockItem) :
    (x :: L).foldl (fun a it => if it.productId = k then a + it.quantity else a) 0
      = (if x.productId = k then x.quantity else 0)
        + L.foldl (fun a it => if it.productId = k then a + it.quantity else a) 0 := by
  have hstep : ∀ (a : ℚ) (y : AssignedStockItem),
      (if y.productId = k then a + y.quantity else a)
        = a + (if y.productId = k then 0 + y.quantity else 0) := by
    intro a y
    by_cases hy : y.productId = k <;> simp [hy]
  rw [List.foldl_cons, foldl_step_init _ hstep L]
  congr 1
  by_cases hx : x.productId = k <;> simp [hx]

/-- Quantity view of the assignment phase: a key receives an entry exactly
when its product is in the catalog and some assigned line mentions it, and
then the entry's quantity is the previous quantity (`|| 0`) plus the guarded
sum of the assigned quantities. -/
theorem mapQty?_assignPhase (ps : List Product) :
    ∀ (items : List AssignedStockItem) (m : StockMap) (k : String),
    mapQty? (assignPhase ps m items) k
      = if ((ps.find? (fun p => p.id = k)).isSome = true
            ∧ items.any (fun it => it.productId = k) = true) then
          some ((mapQty? m k).getD 0
            + items.foldl (fun a it => if it.productId = k then a + it.quantity else a) 0)
        else mapQty? m k
  | [], m, k => by
    rw [if_neg (by simp)]
    rfl
  | it :: items, m, k => by
    have hcons : assignPhase ps m (it :: items)
        = assignPhase ps (assignStep ps m it) items := rfl
    rw [hcons, mapQty?_assignPhase ps items _ k, assignedSum_cons]
    by_cases hkey : it.productId = k
    · cases hfind : ps.find? (fun p => p.id = it.productId) with
      | some productInfo =>
        have hfindk : ps.find? (fun p => p.id = k) = some productInfo := by
          rw [← hkey]; exact hfind
        have hstep : assignStep ps m it = mapSet m it.productId
            { name := it.name,
              quantity := ((mapGet? m it.productId).map (fun d => d.quantity)).getD 0
                + it.quantity,
              price := productInfo.price, image := productInfo.image } := by
          rw [assignStep, hfind]
        have hget : mapQty? (assignStep ps m it) k
            = some (((mapQty? m k).getD 0) + it.quantity) := by
          rw [hstep, ← hkey, mapQty?, mapGet?_set_self]
          rfl
        by_cases hany : items.any (fun it => it.productId = k) = true
        · rw [if_pos ⟨by rw [hfindk]; rfl, hany⟩,
            if_pos ⟨by rw [hfindk]; rfl, by simp [List.any_cons, hany]⟩, hget]
          simp only [Option.getD_some]
          rw [if_pos hkey]
          congr 1
          ring
        · rw [if_neg (fun hc => hany hc.2),
            if_pos ⟨by rw [hfindk]; rfl, by simp [List.any_cons, hkey]⟩, hget]
          have hzero : items.foldl
              (fun a it => if it.productId = k then a + it.quantity else a) 0 = 0 := by
            refine guardSum_const _ _ k items 0 ?_
            intro y hy hyk
            exact hany (List.any_eq_true.mpr ⟨y, hy, by simpa using hyk⟩)
          rw [hzero, if_pos hkey]
          congr 1
          ring
      | none =>
        have hfindk : ps.find? (fun p => p.id = k) = none := by
          rw [← hkey]; exact hfind
        have hstep : assignStep ps m it = m := by rw [assignStep, hfind]
        rw [hstep, if_neg (fun hc => by rw [hfindk] at hc; exact Bool.false_ne_true hc.1),
          if_neg (fun hc => by rw [hfindk] at hc; exact Bool.false_ne_true hc.1)]
    · have hmq : mapQty? (assignStep ps m it) k = mapQty? m k := by
        cases hfind : ps.find? (fun p => p.id = it.productId) with
        | some productInfo =>
          have hstep : assignStep ps m it = mapSet m it.productId
              { name := it.name,
                quantity := ((mapGet? m it.productId).map (fun d => d.quantity)).getD 0
                  + it.quantity,
                price := productInfo.price, image := productInfo.image } := by
            rw [assignStep, hfind]
          rw [hstep, mapQty?, mapGet?_set_ne m it.productId k _
            (fun h => hkey h.symm), mapQty?]
        | none =>
          rw [assignStep, hfind]
      rw [hmq, if_neg hkey, zero_add]
      by_cases hc : ((ps.find? (fun p => p.id = k)).isSome = true
          ∧ items.any (fun it => it.productId = k) = true)
      · rw [if_pos hc, if_pos ⟨hc.1, by simp [List.any_cons, hc.2]⟩]
      · have himp : ¬ ((ps.find? (fun p => p.id = k)).isSome = true
            ∧ (it :: items).any (fun it => it.productId = k) = true) := by
          intro hc2
          refine hc ⟨hc2.1, ?_⟩
          rcases List.any_eq_true.mp hc2.2 with ⟨y, hy, hpy⟩
          rcases List.mem_cons.mp hy with rfl | hy'
          · exact absurd (by simpa using hpy) hkey
          · exact List.any_eq_true.mpr ⟨y, hy', hpy⟩
        rw [if_neg hc, if_neg himp]

/-- Master characterization of the folded stock map: a key is present
exactly when its product is in the catalog and some assigned line mentions
it, and then its quantity is assigned minus sold minus returned. -/
theorem mapQty?_sellerStockMap (s : Seller) (ps : List Product) (k : String) :
    mapQty? (sellerStockMap s ps) k
      = if ((ps.find? (fun p => p.id = k)).isSome = true
            ∧ s.assignedStock.any (fun it => it.productId = k) = true) then
          some (assignedSum s k - salesSum s k - returnsSum s k)
        else none := by
  rw [sellerStockMap, mapQty?_returnsPhase, mapQty?_salesPhase, mapQty?_assignPhase]
  have hempty : mapQty? ([] : StockMap) k = none := rfl
  rw [hempty]
  by_cases hc : ((ps.find? (fun p => p.id = k)).isSome = true
      ∧ s.assignedStock.any (fun it => it.productId = k) = true)
  · rw [if_pos hc, if_pos hc]
    simp only [Option.getD_none, Option.map_some']
    rw [assignedSum, salesSum, returnsSum]
    congr 1
    ring
  · rw [if_neg hc, if_neg hc]
    rfl

/-- `mapSet` preserves distinctness of the stored keys. -/
theorem keys_nodup_mapSet (m : StockMap) (k : String) (v : SellerStockData)
    (h : (m.map (fun e => e.1)).Nodup) :
    ((mapSet m k v).map (fun e => e.1)).Nodup := by
  rw [mapSet]
  by_cases hany : m.any (fun e => e.1 = k) = true
  · rw [if_pos hany]
    have hkeys : (m.map (fun e => if e.1 = k then (k, v) else e)).map (fun e => e.1)
        = m.map (fun e => e.1) := by
      rw [List.map_map]
      refine List.map_congr_left ?_
      intro e he
      by_cases hek : e.1 = k
      · simp [Function.comp, hek]
      · simp [Function.comp, hek]
    rw [hkeys]
    exact h
  · rw [if_neg hany, List.map_append]
    refine List.Nodup.append h (List.nodup_singleton k) ?_
    intro a ha hb
    rw [List.map_singleton, List.mem_singleton] at hb
    subst hb
    rcases List.mem_map.mp ha with ⟨e, hem, hek⟩
    exact hany (List.any_eq_true.mpr ⟨e, hem, by simpa using hek⟩)

/-- `subtractQty` preserves distinctness of the stored keys. -/
theorem keys_nodup_subtractQty (m : StockMap) (pid : String) (q : ℚ)
    (h : (m.map (fun e => e.1)).Nodup) :
    ((subtractQty m pid q).map (fun e => e.1)).Nodup := by
  cases hget : mapGet? m pid with
  | none =>
    have hid : subtractQty m pid q = m := by rw [subtractQty, hget]
    rw [hid]
    exact h
  | some d =>
    have hset : subtractQty m pid q = mapSet m pid { d with quantity := d.quantity - q } := by
      rw [subtractQty, hget]
    rw [hset]
    exact keys_nodup_mapSet m pid _ h

/-- A fold of `subtractQty` steps preserves distinctness of the keys. -/
theorem keys_nodup_foldl_subtract {α : Type} (key : α → String) (qty : α → ℚ) :
    ∀ (L : List α) (m : StockMap), (m.map (fun e => e.1)).Nodup →
    ((L.foldl (fun m x => subtractQty m (key x) (qty x)) m).map (fun e => e.1)).Nodup
  | [], _, h => h
  | x :: L, m, h => by
    rw [List.foldl_cons]
    exact keys_nodup_foldl_subtract key qty L _ (keys_nodup_subtractQty m (key x) (qty x) h)

/-- The assignment phase preserves distinctness of the keys. -/
theorem keys_nodup_assignPhase (ps : List Product) :
    ∀ (items : List AssignedStockItem) (m : StockMap), (m.map (fun e => e.1)).Nodup →
    ((assignPhase ps m items).map (fun e => e.1)).Nodup
  | [], _, h => h
  | it :: items, m, h => by
    have hcons : assignPhase ps m (it :: items)
        = assignPhase ps (assignStep ps m it) items := rfl
    rw [hcons]
    refine keys_nodup_assignPhase ps items _ ?_
    cases hfind : ps.find? (fun p => p.id = it.productId) with
    | none =>
      have hid : assignStep ps m it = m := by rw [assignStep, hfind]
      rw [hid]
      exact h
    | some productInfo =>
      have hset : assignStep ps m it = mapSet m it.productId
          { name := it.name,
            quantity := ((mapGet? m it.productId).map (fun d => d.quantity)).getD 0
              + it.quantity,
            price := productInfo.price, image := productInfo.image } := by
        rw [assignStep, hfind]
      rw [hset]
      exact keys_nodup_mapSet m it.productId _ h

/-- The folded stock map has pairwise distinct keys. -/
theorem keys_nodup_sellerStockMap (s : Seller) (ps : List Product) :
    ((sellerStockMap s ps).map (fun e => e.1)).Nodup := by
  have h1 := keys_nodup_assignPhase ps s.assignedStock [] List.nodup_nil
  have h2 : ((salesPhase (assignPhase ps [] s.assignedStock) s.sales).map
      (fun e => e.1)).Nodup := by
    rw [salesPhase_eq_flat]
    exact keys_nodup_foldl_subtract (fun it : SellerSaleItem => it.productId)
      (fun it : SellerSaleItem => it.quantity) _ _ h1
  exact keys_nodup_foldl_subtract (fun r : SellerReturn => r.productId)
    (fun r : SellerReturn => r.quantity) s.returns _ h2

/-- In a map with distinct keys, looking up the key of a stored pair finds
that pair. -/
theorem find?_of_mem_keys_nodup :
    ∀ (m : StockMap), ((m.map (fun e => e.1)).Nodup) →
      ∀ e ∈ m, m.find? (fun x => x.1 = e.1) = some e
  | [], _, e, he => absurd he (List.not_mem_nil e)
  | x :: m, hnd, e, he => by
    rw [List.map_cons] at hnd
    rcases List.mem_cons.mp he with rfl | he'
    · exact List.find?_cons_of_pos _ (by simp)
    · have hx : ¬ x.1 = e.1 := by
        intro hcontra
        refine (List.nodup_cons.mp hnd).1 ?_
        rw [hcontra]
        exact List.mem_map.mpr ⟨e, he', rfl⟩
      rw [List.find?_cons_of_neg _ (by simpa using hx)]
      exact find?_of_mem_keys_nodup m (List.nodup_cons.mp hnd).2 e he'

/-- Looking up a product in the computed consigned-stock list, in terms of
the underlying map: present exactly when the stored quantity is positive. -/
theorem find?_calculateStock :
    ∀ (m : StockMap), ((m.map (fun e => e.1)).Nodup) → ∀ (k : String),
    ((m.map (fun e =>
        ({ productId := e.1, name := e.2.name, quantity := e.2.quantity, price := e.2.price,
           image := e.2.image } : SellerStockEntry))).filter
        (fun p => p.quantity > 0)).find? (fun p => p.productId = k)
      = (match mapGet? m k with
        | some d => if d.quantity > 0 then
            some { productId := k, name := d.name, quantity := d.quantity, price := d.price,
                   image := d.image }
          else none
        | none => none)
  | [], _, k => rfl
  | e :: m, hnd, k => by
    rw [List.map_cons] at hnd
    have hnd' := (List.nodup_cons.mp hnd).2
    by_cases hek : e.1 = k
    · have hget : (match mapGet? (e :: m) k with
          | some d => if d.quantity > 0 then
              some ({ productId := k, name := d.name, quantity := d.quantity,
                      price := d.price, image := d.image } : SellerStockEntry)
            else none
          | none => none)
          = if e.2.quantity > 0 then
              some ({ productId := k, name := e.2.name, quantity := e.2.quantity,
                      price := e.2.price, image := e.2.image } : SellerStockEntry)
            else none := by
        rw [mapGet?, List.find?_cons_of_pos _ (by simpa using hek)]
        rfl
      rw [hget]
      by_cases hq : e.2.quantity > 0
      · rw [List.map_cons, List.filter_cons_of_pos (by simpa using hq),
          List.find?_cons_of_pos _ (by simpa using hek), if_pos hq, hek]
      · rw [List.map_cons, List.filter_cons_of_neg (by simpa using hq), if_neg hq]
        rw [List.find?_eq_none]
        intro x hx
        rcases List.mem_map.mp (List.mem_of_mem_filter hx) with ⟨e', he', rfl⟩
        have hne : ¬ e'.1 = k := by
          intro hcontra
          refine (List.nodup_cons.mp hnd).1 ?_
          rw [hek, ← hcontra]
          exact List.mem_map.mpr ⟨e', he', rfl⟩
        simpa using hne
    · have hget : (match mapGet? (e :: m) k with
          | some d => if d.quantity > 0 then
              some ({ productId := k, name := d.name, quantity := d.quantity,
                      price := d.price, image := d.image } : SellerStockEntry)
            else none
          | none => none)
          = (match mapGet? m k with
          | some d => if d.quantity > 0 then
              some ({ productId := k, name := d.name, quantity := d.quantity,
                      price := d.price, image := d.image } : SellerStockEntry)
            else none
          | none => none) := by
        rw [mapGet?, List.find?_cons_of_neg _ (by simpa using hek), mapGet?]
      rw [hget]
      by_cases hq : e.2.quantity > 0
      · rw [List.map_cons, List.filter_cons_of_pos (by simpa using hq),
          List.find?_cons_of_neg _ (by simpa using hek)]
        exact find?_calculateStock m hnd' k
      · rw [List.map_cons, List.filter_cons_of_neg (by simpa using hq)]
        exact find?_calculateStock m hnd' k

/-- The seller's available consigned quantity, in terms of the underlying
stock map: the stored quantity when positive, otherwise 0. -/
theorem availableQty_char (s : Seller) (ps : List Product) (k : String) :
    availableQty s ps k
      = (match mapGet? (sellerStockMap s ps) k with
        | some d => if 0 < d.quantity then d.quantity else 0
        | none => 0) := by
  rw [availableQty]
  have hcalc : calculateSellerStock (some s) ps
      = ((sellerStockMap s ps).map (fun e =>
          ({ productId := e.1, name := e.2.name, quantity := e.2.quantity, price := e.2.price,
             image := e.2.image } : SellerStockEntry))).filter (fun p => p.quantity > 0) := rfl
  rw [hcalc, find?_calculateStock (sellerStockMap s ps) (keys_nodup_sellerStockMap s ps) k]
  cases hget : mapGet? (sellerStockMap s ps) k with
  | none => rfl
  | some d =>
    dsimp only
    by_cases hq : 0 < d.quantity
    · rw [if_pos hq, if_pos hq]
      rfl
    · rw [if_neg hq, if_neg hq]
      rfl

/-! ## Claim C5 — seller consigned stock fold -/

/-- C5: every entry of the derived consigned-stock list carries quantity
`Σ assignedStock − Σ sales.items − Σ returns` for its product and is
strictly positive (the list is filtered to positive quantities); and for the
spec's concrete seller (`assigned 10, sold 3, returned 1` of product `P`)
the computed list is exactly one entry of quantity `10 − 3 − 1 = 6`. -/
theorem C5_sellerConsignedStock (s : Seller) (ps : List Product) :
    (∀ e ∈ calculateSellerStock (some s) ps,
        e.quantity = assignedSum s e.productId - salesSum s e.productId
            - returnsSum s e.productId
        ∧ 0 < e.quantity)
    ∧ calculateSellerStock (some c5Seller) c5Products = [c5Entry] := by
  constructor
  · intro e he
    have hcalc : calculateSellerStock (some s) ps
        = ((sellerStockMap s ps).map (fun e =>
            ({ productId := e.1, name := e.2.name, quantity := e.2.quantity,
               price := e.2.price, image := e.2.image } : SellerStockEntry))).filter
            (fun p => p.quantity > 0) := rfl
    rw [hcalc] at he
    have hq : 0 < e.quantity := by simpa using (List.mem_filter.mp he).2
    rcases List.mem_map.mp (List.mem_filter.mp he).1 with ⟨pair, hpair, rfl⟩
    refine ⟨?_, hq⟩
    have hfind := find?_of_mem_keys_nodup (sellerStockMap s ps)
      (keys_nodup_sellerStockMap s ps) pair hpair
    have hqty : mapQty? (sellerStockMap s ps) pair.1 = some pair.2.quantity := by
      rw [mapQty?, mapGet?, hfind]
      rfl
    rw [mapQty?_sellerStockMap] at hqty
    by_cases hc : ((ps.find? (fun p => p.id = pair.1)).isSome = true
        ∧ s.assignedStock.any (fun it => it.productId = pair.1) = true)
    · rw [if_pos hc] at hqty
      exact (Option.some.inj hqty).symm
    · rw [if_neg hc] at hqty
      exact absurd hqty (by simp)
  · norm_num [calculateSellerStock, sellerStockMap, returnsPhase, salesPhase, assignPhase,
      assignStep, subtractQty, mapSet, mapGet?, c5Seller, c5Products, c5Entry, List.find?,
      List.filter_cons]

/-- C5, witness: the concrete entry of quantity 6 is in the computed list
and satisfies the fold equation of the theorem. -/
theorem C5_witness :
    c5Entry ∈ calculateSellerStock (some c5Seller) c5Products
    ∧ c5Entry.quantity
        = assignedSum c5Seller "P" - salesSum c5Seller "P" - returnsSum c5Seller "P" := by
  have hmem : c5Entry ∈ calculateSellerStock (some c5Seller) c5Products := by
    rw [(C5_sellerConsignedStock c5Seller c5Products).2]
    exact List.mem_singleton.mpr rfl
  have h := (C5_sellerConsignedStock c5Seller c5Products).1 _ hmem
  exact ⟨hmem, h.1⟩

/-! ## Claim C9 — registering a seller return -/

/-- Looking up a product after a stock increment finds the same product
with only its stock changed. -/
theorem find?_applyStockDelta (ps : List Product) (pid : String) (q : ℚ) (k : String) :
    (applyStockDelta ps pid q).find? (fun p => p.id = k)
      = (ps.find? (fun p => p.id = k)).map
          (fun p => if p.id = pid then { p with stock := p.stock + q } else p) := by
  rw [applyStockDelta, List.find?_map]
  have hpred : ((fun p : Product => decide (p.id = k))
      ∘ (fun p => if p.id = pid then { p with stock := p.stock + q } else p))
      = fun p : Product => decide (p.id = k) := by
    funext x
    by_cases hx : x.id = pid <;> simp [Function.comp, hx]
  rw [hpred]

/-- The assignment step only reads the found product's price and image, so
a stock increment does not affect it. -/
theorem assignStep_applyStockDelta (ps : List Product) (pid : String) (q : ℚ)
    (m : StockMap) (it : AssignedStockItem) :
    assignStep (applyStockDelta ps pid q) m it = assignStep ps m it := by
  cases hf : ps.find? (fun p => p.id = it.productId) with
  | none =>
    rw [assignStep, find?_applyStockDelta, hf, assignStep, hf]
    rfl
  | some p =>
    rw [assignStep, find?_applyStockDelta, hf, assignStep, hf]
    by_cases hp : p.id = pid <;> simp [hp]

/-- The assignment phase is unaffected by a stock increment. -/
theorem assignPhase_applyStockDelta (ps : List Product) (pid : String) (q : ℚ) :
    ∀ (items : List AssignedStockItem) (m : StockMap),
    assignPhase (applyStockDelta ps pid q) m items = assignPhase ps m items
  | [], _ => rfl
  | it :: items, m => by
    have h1 : assignPhase (applyStockDelta ps pid q) m (it :: items)
        = assignPhase (applyStockDelta ps pid q)
            (assignStep (applyStockDelta ps pid q) m it) items := rfl
    rw [h1, assignStep_applyStockDelta, assignPhase_applyStockDelta ps pid q items _]
    rfl

/-- The folded stock map is unaffected by a catalog stock increment. -/
theorem sellerStockMap_applyStockDelta (s : Seller) (ps : List Product)
    (pid : String) (q : ℚ) :
    sellerStockMap s (applyStockDelta ps pid q) = sellerStockMap s ps := by
  rw [sellerStockMap, sellerStockMap, assignPhase_applyStockDelta]

/-- Appending one return adds its quantity to the guarded return sum of its
product (and nothing else). -/
theorem returnsSum_append (s : Seller) (r : SellerReturn) (k : String) :
    returnsSum { s with returns := s.returns ++ [r] } k
      = if r.productId = k then returnsSum s k + r.quantity else returnsSum s k := by
  simp only [returnsSum]
  rw [List.foldl_append, List.foldl_cons, List.foldl_nil]

/-- The seller's available quantity, in terms of the quantity stored in the
folded map. -/
theorem availableQty_char_qty (s : Seller) (ps : List Product) (k : String) :
    availableQty s ps k
      = (match mapQty? (sellerStockMap s ps) k with
        | some v => if 0 < v then v else 0
        | none => 0) := by
  rw [availableQty_char, mapQty?]
  cases mapGet? (sellerStockMap s ps) k with
  | none => rfl
  | some d => rfl

/-- C9: when the product exists and the returned quantity is positive and
within the seller's available consigned stock, the return record is appended
to the seller either way; the catalog product stock is incremented by the
returned quantity exactly when the reason is `"No vendido"` and left
unchanged for `"Dañado"`; and the seller's derived consigned stock of that
product decreases by the returned quantity in both cases. -/
theorem C9_registerReturn (products : List Product) (seller : Seller) (data : ReturnFormData)
    (retId now : String) (p : Product)
    (hfind : products.find? (fun q => q.id = data.productId) = some p)
    (hq : 0 < data.quantity)
    (havail : data.quantity ≤ availableQty seller products data.productId) :
    ((handleRegisterReturn products seller data retId now).2.returns
        = seller.returns
          ++ [{ id := retId, productId := data.productId, quantity := data.quantity,
                reason := data.reason, timestamp := now }])
    ∧ (data.reason = "No vendido" →
        (handleRegisterReturn products seller data retId now).1
            = applyStockDelta products data.productId data.quantity
        ∧ (((handleRegisterReturn products seller data retId now).1.find?
              (fun x => x.id = data.productId)).map (fun x => x.stock))
            = some (p.stock + data.quantity))
    ∧ (data.reason = "Dañado" →
        (handleRegisterReturn products seller data retId now).1 = products)
    ∧ availableQty (handleRegisterReturn products seller data retId now).2
          (handleRegisterReturn products seller data retId now).1 data.productId
        = availableQty seller products data.productId - data.quantity := by
  have hnot : ¬ data.quantity > availableQty seller products data.productId :=
    not_lt.mpr havail
  have hpid : p.id = data.productId := by
    simpa using List.find?_some hfind
  have hrun : handleRegisterReturn products seller data retId now
      = ((if data.reason = "No vendido"
            then applyStockDelta products data.productId data.quantity else products),
         { seller with returns := seller.returns
             ++ [{ id := retId, productId := data.productId, quantity := data.quantity,
                   reason := data.reason, timestamp := now }] }) := by
    rw [handleRegisterReturn, hfind]
    dsimp only
    rw [if_neg hnot]
  have hs2 : (handleRegisterReturn products seller data retId now).2
      = { seller with returns := seller.returns
          ++ [{ id := retId, productId := data.productId, quantity := data.quantity,
                reason := data.reason, timestamp := now }] } := by
    rw [hrun]
  have hp1 : (handleRegisterReturn products seller data retId now).1
      = (if data.reason = "No vendido"
          then applyStockDelta products data.productId data.quantity else products) := by
    rw [hrun]
  refine ⟨by rw [hs2], ?_, ?_, ?_⟩
  · intro hr
    have hfst : (handleRegisterReturn products seller data retId now).1
        = applyStockDelta products data.productId data.quantity := by
      rw [hp1, if_pos hr]
    refine ⟨hfst, ?_⟩
    rw [hfst, find?_applyStockDelta, hfind]
    simp [hpid]
  · intro hr
    rw [hp1, hr]
    rw [if_neg (by decide)]
  · -- the derived consigned stock decreases by the returned quantity
    set s2 : Seller := { seller with returns := seller.returns
        ++ [{ id := retId, productId := data.productId, quantity := data.quantity,
              reason := data.reason, timestamp := now }] } with hs2def
    have hmap2 : sellerStockMap s2 (handleRegisterReturn products seller data retId now).1
        = sellerStockMap s2 products := by
      rw [hp1]
      by_cases hr : data.reason = "No vendido"
      · rw [if_pos hr, sellerStockMap_applyStockDelta]
      · rw [if_neg hr]
    have hold := availableQty_char_qty seller products data.productId
    have hnew := availableQty_char_qty s2
      (handleRegisterReturn products seller data retId now).1 data.productId
    have holdM := mapQty?_sellerStockMap seller products data.productId
    have hnewM := mapQty?_sellerStockMap s2 products data.productId
    by_cases hc : ((products.find? (fun p => p.id = data.productId)).isSome = true
        ∧ seller.assignedStock.any (fun it => it.productId = data.productId) = true)
    · rw [if_pos hc] at holdM
      have hcond2 : ((products.find? (fun p => p.id = data.productId)).isSome = true
          ∧ s2.assignedStock.any (fun it => it.productId = data.productId) = true) := hc
      rw [if_pos hcond2] at hnewM
      have hsums : assignedSum s2 data.productId - salesSum s2 data.productId
          - returnsSum s2 data.productId
          = (assignedSum seller data.productId - salesSum seller data.productId
              - returnsSum seller data.productId) - data.quantity := by
        have hra : assignedSum s2 data.productId = assignedSum seller data.productId := rfl
        have hrs : salesSum s2 data.productId = salesSum seller data.productId := rfl
        have hrr : returnsSum s2 data.productId
            = returnsSum seller data.productId + data.quantity := by
          rw [hs2def, returnsSum_append, if_pos rfl]
        rw [hra, hrs, hrr]
        ring
      set F := assignedSum seller data.productId - salesSum seller data.productId
        - returnsSum seller data.productId with hF
      rw [hsums] at hnewM
      -- old available = F (it is positive because the return fits into it)
      have holdA : availableQty seller products data.productId
          = if 0 < F then F else 0 := by
        rw [hold, holdM]
      have hApos : 0 < availableQty seller products data.productId := lt_of_lt_of_le hq havail
      have hFpos : 0 < F := by
        by_contra hFnp
        rw [holdA, if_neg hFnp] at hApos
        exact lt_irrefl 0 hApos
      have holdAF : availableQty seller products data.productId = F := by
        rw [holdA, if_pos hFpos]
      have hqF : data.quantity ≤ F := by rw [← holdAF]; exact havail
      rw [hs2, hnew, hmap2, hnewM]
      dsimp only
      by_cases hFq : 0 < F - data.quantity
      · rw [if_pos hFq, holdAF]
      · rw [if_neg hFq, holdAF]
        have h0 : F - data.quantity = 0 := le_antisymm (not_lt.mp hFq) (by linarith)
        exact h0.symm
    · rw [if_neg hc] at holdM
      -- then the old available quantity is 0, contradicting 0 < q ≤ it
      have hA0 : availableQty seller products data.productId = 0 := by
        rw [hold, holdM]
      rw [hA0] at havail
      exact absurd (lt_of_lt_of_le hq havail) (lt_irrefl 0)

/-- C9, witness: returning 3 units of `P` (catalog stock 4, consigned 10)
as unsold restocks the catalog to 7 and drops the consigned stock to 7,
while returning them as damaged leaves the catalog untouched. -/
theorem C9_witness :
    c9Products.find? (fun q => q.id = "P") = some c9ProductP
    ∧ availableQty c9Seller c9Products "P" = 10
    ∧ (handleRegisterReturn c9Products c9Seller c9DataUnsold "RET-9" "T9").2.returns
        = c9Seller.returns
          ++ [{ id := "RET-9", productId := c9DataUnsold.productId,
                quantity := c9DataUnsold.quantity, reason := c9DataUnsold.reason,
                timestamp := "T9" }]
    ∧ (((handleRegisterReturn c9Products c9Seller c9DataUnsold "RET-9" "T9").1.find?
          (fun x => x.id = c9DataUnsold.productId)).map (fun x => x.stock))
        = some (c9ProductP.stock + c9DataUnsold.quantity)
    ∧ (handleRegisterReturn c9Products c9Seller c9DataDamaged "RET-9" "T9").1 = c9Products
    ∧ availableQty (handleRegisterReturn c9Products c9Seller c9DataUnsold "RET-9" "T9").2
          (handleRegisterReturn c9Products c9Seller c9DataUnsold "RET-9" "T9").1
          c9DataUnsold.productId
        = availableQty c9Seller c9Products "P" - c9DataUnsold.quantity := by
  have hfind : c9Products.find? (fun q => q.id = "P") = some c9ProductP := rfl
  have hav : availableQty c9Seller c9Products "P" = 10 := by
    norm_num [availableQty, calculateSellerStock, sellerStockMap, returnsPhase, salesPhase,
      assignPhase, assignStep, subtractQty, mapSet, mapGet?, c9Seller, c9Products,
      c9ProductP, List.find?, List.filter_cons]
  have hq : (0:ℚ) < c9DataUnsold.quantity := by decide
  have havail : c9DataUnsold.quantity ≤ availableQty c9Seller c9Products "P" := by
    rw [show c9DataUnsold.quantity = (3:ℚ) from rfl, hav]
    norm_num
  have h := C9_registerReturn c9Products c9Seller c9DataUnsold "RET-9" "T9" c9ProductP
    hfind hq havail
  have h' := C9_registerReturn c9Products c9Seller c9DataDamaged "RET-9" "T9" c9ProductP
    hfind hq havail
  exact ⟨hfind, hav, h.1, (h.2.1 rfl).2, h'.2.2.1 rfl, h.2.2.2⟩

end Quimexar
